import Mathlib

/-!
Verification development for the AI English tutor grading backend
(`src/main.py`).  The Python source is shallowly embedded: the response
normalization pipeline of `grade_writing` (fence stripping, shape gate,
strict JSON parsing, pydantic schema validation), the content acquirer
(OCR tolerance and concatenation), the reference-answer resolver
(`get_standard_answer_from_gcs`), prompt templating (`str.format`), and
the content-part assembly for the model call.

Modelling conventions:
* Python strings are Lean `String`s; character-level work uses `List Char`.
  Whitespace sets are the ASCII subsets of the Python ones
  (`str.strip` / regex `\s`: space, tab, newline, carriage return,
  vertical tab, form feed; the `json` module: space, tab, newline,
  carriage return).
* Python exceptions become explicit error results (`Except`); the
  FastAPI `HTTPException` payload is the pair (status code, detail).
* External services (Cloud Vision OCR, GCS blob storage, the Gemini
  model) are inputs: per-file OCR outcomes, a storage oracle, and the
  model response structure are parameters of the embedded functions.
-/

/-! ## Python-style string utilities -/

/-- ASCII whitespace recognised by Python `str.strip()` and the regex
class `\s` (the non-ASCII whitespace code points are not modelled). -/
def isSpace (c : Char) : Bool :=
  c = ' ' || c = '\t' || c = '\n' || c = '\r' || c = '\x0b' || c = '\x0c'

/-- `str.strip()` on a character list. -/
def pyStripL (l : List Char) : List Char :=
  ((l.dropWhile isSpace).reverse.dropWhile isSpace).reverse

/-- Python `str.strip()`. -/
def pyStrip (s : String) : String :=
  String.mk (pyStripL s.toList)

/-- Substring test on character lists (Python's `in` operator for
strings): some suffix of the haystack has the needle as a prefix. -/
def isSubstrL (p : List Char) : List Char → Bool
  | [] => p.isEmpty
  | c :: rest => p.isPrefixOf (c :: rest) || isSubstrL p rest

/-- Python `needle in hay` for strings. -/
def containsSub (needle hay : String) : Bool :=
  isSubstrL needle.toList hay.toList

/-! ## JSON values

The result of Python's `json.loads`.  Numbers keep the int/float
distinction that `json` and pydantic make; a float keeps its source
lexeme (no claim computes with float values, only their type and
zero-ness matter). Objects are association lists in insertion order;
`dictInsert` reproduces `dict` assignment (a repeated key keeps its
first position and takes the latest value). -/

inductive Json where
  | null
  | bool (b : Bool)
  | int (n : Int)
  | float (lit : String)
  | str (s : String)
  | arr (xs : List Json)
  | obj (kvs : List (String × Json))
deriving Repr

/-- Lookup of a key in a JSON object (Python `dict` access). -/
def getField (kvs : List (String × Json)) (k : String) : Option Json :=
  match kvs.find? (fun p => p.1 == k) with
  | some p => some p.2
  | none => none

/-- Python `dict` assignment while building an object during parsing. -/
def dictInsert (kvs : List (String × Json)) (k : String) (v : Json) :
    List (String × Json) :=
  if kvs.any (fun p => p.1 == k) then
    kvs.map (fun p => if p.1 == k then (k, v) else p)
  else
    kvs ++ [(k, v)]

/-- Is a float lexeme a zero value (`0.0`, `-0e5`, ...)?  Used only for
Python truthiness. `NaN`/`Infinity` lexemes contain no digits-only
mantissa and are truthy. -/
def floatLitIsZero (lit : String) : Bool :=
  let l := lit.toList
  let l := match l with
    | '-' :: rest => rest
    | _ => l
  let mantissa := l.takeWhile (fun c => c != 'e' && c != 'E')
  mantissa.all (fun c => c = '0' || c = '.') && mantissa.any (fun c => c = '0')

/-- Python truthiness of a decoded JSON value (`if not lesson_data:`). -/
def jsonTruthy : Json → Bool
  | Json.null => false
  | Json.bool b => b
  | Json.int n => n != 0
  | Json.float lit => !(floatLitIsZero lit)
  | Json.str s => s != ""
  | Json.arr xs => !xs.isEmpty
  | Json.obj kvs => !kvs.isEmpty

/-! ### Field-preservation order on JSON values

`jsonSub v w` holds when every piece of information in `v` is present in
`w`: scalars must be equal, arrays must agree pointwise, and every field
of an object must appear (recursively preserved) in the other object —
regardless of key order.  This is the sense in which validation loses no
field. -/

mutual

def jsonSub : Json → Json → Bool
  | Json.null, Json.null => true
  | Json.bool a, Json.bool b => a == b
  | Json.int a, Json.int b => a == b
  | Json.float a, Json.float b => a == b
  | Json.str a, Json.str b => a == b
  | Json.arr xs, Json.arr ys => jsonSubList xs ys
  | Json.obj kvs, Json.obj kvs2 => jsonSubKvs kvs kvs2
  | _, _ => false

def jsonSubList : List Json → List Json → Bool
  | [], [] => true
  | x :: xs, y :: ys => jsonSub x y && jsonSubList xs ys
  | _, _ => false

def jsonSubKvs : List (String × Json) → List (String × Json) → Bool
  | [], _ => true
  | (k, j) :: rest, kvs2 =>
      (match getField kvs2 k with
       | some j2 => jsonSub j j2
       | none => false) && jsonSubKvs rest kvs2

end

/-! ## Strict JSON parsing (Python `json.loads`)

A recursive-descent parser over `List Char`, faithful to the strict
decoder of Python's `json` module on the behaviours the claims exercise:
only brace/bracket/string/number/keyword starts are values, trailing
commas and unterminated strings are decode errors, parsing consumes the
whole input (`Extra data` otherwise), and `NaN`/`Infinity`/`-Infinity`
are accepted.  Error positions (`line 1 column ...`) are elided from the
messages; lone surrogate escapes (which CPython tolerates) map to
U+FFFD. `fuel` bounds nesting depth; `jsonLoads` supplies more fuel than
any input can consume. -/

/-- Whitespace skipped by the `json` module between tokens. -/
def isJsonWs (c : Char) : Bool :=
  c = ' ' || c = '\t' || c = '\n' || c = '\r'

/-- Decimal digit test. -/
def isDigitCh (c : Char) : Bool := '0' ≤ c && c ≤ '9'

/-- Hexadecimal value of a digit, if any (working on the code point). -/
def hexVal (c : Char) : Option Nat :=
  let n := c.toNat
  if 48 ≤ n && n ≤ 57 then some (n - 48)
  else if 97 ≤ n && n ≤ 102 then some (n - 87)
  else if 65 ≤ n && n ≤ 70 then some (n - 55)
  else none

/-- The character for a `\uXXXX` escape.  Surrogate halves are replaced
by U+FFFD (see module comment). -/
def unicodeChar (n : Nat) : Char :=
  if n < 0xd800 ∨ (0xe000 ≤ n ∧ n < 0x110000) then
    Char.ofNat n
  else
    '�'

/-- String-body scanner: content after the opening quote, strict mode
(control characters are invalid). Returns the decoded characters and
the input after the closing quote. -/
def parseStringBody (acc : List Char) : List Char → Except String (List Char × List Char)
  | [] => Except.error "Unterminated string"
  | '"' :: rest => Except.ok (acc.reverse, rest)
  | '\\' :: 'u' :: h1 :: h2 :: h3 :: h4 :: rest =>
      match hexVal h1, hexVal h2, hexVal h3, hexVal h4 with
      | some a, some b, some c, some d =>
          parseStringBody (unicodeChar (((a * 16 + b) * 16 + c) * 16 + d) :: acc) rest
      | _, _, _, _ => Except.error "Invalid \\uXXXX escape"
  | '\\' :: e :: rest =>
      match e with
      | '"' => parseStringBody ('"' :: acc) rest
      | '\\' => parseStringBody ('\\' :: acc) rest
      | '/' => parseStringBody ('/' :: acc) rest
      | 'b' => parseStringBody ('\x08' :: acc) rest
      | 'f' => parseStringBody ('\x0c' :: acc) rest
      | 'n' => parseStringBody ('\n' :: acc) rest
      | 'r' => parseStringBody ('\r' :: acc) rest
      | 't' => parseStringBody ('\t' :: acc) rest
      | _ => Except.error "Invalid \\escape"
  | c :: rest =>
      if c.toNat < 0x20 then Except.error "Invalid control character"
      else parseStringBody (c :: acc) rest

/-- Digits of a natural number read greedily. -/
def readDigits (acc : List Char) : List Char → (List Char × List Char)
  | [] => (acc.reverse, [])
  | c :: rest =>
      if isDigitCh c then readDigits (c :: acc) rest
      else (acc.reverse, c :: rest)

/-- Value of a list of decimal digits. -/
def digitsToNat (l : List Char) : Nat :=
  l.foldl (fun n c => 10 * n + (c.toNat - 48)) 0

/-- The number regex of the `json` module:
`(-?(0|[1-9][0-9]*))(\.[0-9]+)?([eE][+-]?[0-9]+)?`, maximal munch.
Yields an `int` when neither fraction nor exponent is present, otherwise
a `float` carrying the lexeme. Fails when the integer part is missing. -/
def parseNumber (l : List Char) : Except String (Json × List Char) :=
  let (sign, afterSign) :=
    match l with
    | '-' :: rest => (true, rest)
    | _ => (false, l)
  match afterSign with
  | [] => Except.error "Expecting value"
  | c :: rest =>
      if !isDigitCh c then Except.error "Expecting value"
      else
        let (intDigits, afterInt) :=
          if c = '0' then ([c], rest) else readDigits [c] rest
        let (fracDigits, afterFrac) :=
          match afterInt with
          | '.' :: d :: rest2 =>
              if isDigitCh d then
                let (ds, r) := readDigits [d] rest2
                ('.' :: ds, r)
              else ([], afterInt)
          | _ => ([], afterInt)
        let (expDigits, afterExp) :=
          match afterFrac with
          | e :: rest2 =>
              if e = 'e' || e = 'E' then
                match rest2 with
                | s :: d :: rest3 =>
                    if (s = '+' || s = '-') && isDigitCh d then
                      let (ds, r) := readDigits [d] rest3
                      (e :: s :: ds, r)
                    else if isDigitCh s then
                      let (ds, r) := readDigits [s] rest2.tail
                      (e :: ds, r)
                    else ([], afterFrac)
                | [s] =>
                    if isDigitCh s then (e :: [s], []) else ([], afterFrac)
                | [] => ([], afterFrac)
              else ([], afterFrac)
          | [] => ([], afterFrac)
        if fracDigits.isEmpty && expDigits.isEmpty then
          let n : Int := Int.ofNat (digitsToNat intDigits)
          Except.ok (Json.int (if sign then -n else n), afterInt)
        else
          let lex := (if sign then ['-'] else []) ++ intDigits ++ fracDigits ++ expDigits
          Except.ok (Json.float (String.mk lex), afterExp)

mutual

/-- One JSON value starting at the head of the input (no leading
whitespace), as in the scanner of the `json` module. -/
def parseValue (fuel : Nat) (l : List Char) : Except String (Json × List Char) :=
  match fuel with
  | 0 => Except.error "Nesting too deep"
  | fuel + 1 =>
    match l with
    | [] => Except.error "Expecting value"
    | c :: rest =>
      if c = '{' then parseObjBody fuel (rest.dropWhile isJsonWs) []
      else if c = '[' then parseArrBody fuel (rest.dropWhile isJsonWs) true []
      else if c = '"' then
        match parseStringBody [] rest with
        | Except.error e => Except.error e
        | Except.ok (cs, r) => Except.ok (Json.str (String.mk cs), r)
      else if c = 'n' then
        if ['u', 'l', 'l'].isPrefixOf rest then Except.ok (Json.null, rest.drop 3)
        else Except.error "Expecting value"
      else if c = 't' then
        if ['r', 'u', 'e'].isPrefixOf rest then Except.ok (Json.bool true, rest.drop 3)
        else Except.error "Expecting value"
      else if c = 'f' then
        if ['a', 'l', 's', 'e'].isPrefixOf rest then Except.ok (Json.bool false, rest.drop 4)
        else Except.error "Expecting value"
      else if c = 'N' then
        if ['a', 'N'].isPrefixOf rest then Except.ok (Json.float "NaN", rest.drop 2)
        else Except.error "Expecting value"
      else if c = 'I' then
        if ['n', 'f', 'i', 'n', 'i', 't', 'y'].isPrefixOf rest then
          Except.ok (Json.float "Infinity", rest.drop 7)
        else Except.error "Expecting value"
      else if c = '-' && ['I', 'n', 'f', 'i', 'n', 'i', 't', 'y'].isPrefixOf rest then
        Except.ok (Json.float "-Infinity", rest.drop 8)
      else if c = '-' || isDigitCh c then parseNumber (c :: rest)
      else Except.error "Expecting value"

/-- Object members after `{` (leading whitespace already skipped).
`acc` holds the members parsed so far. -/
def parseObjBody (fuel : Nat) (l : List Char) (acc : List (String × Json)) :
    Except String (Json × List Char) :=
  match fuel with
  | 0 => Except.error "Nesting too deep"
  | fuel + 1 =>
    match l with
    | '}' :: rest =>
        if acc.isEmpty then Except.ok (Json.obj [], rest)
        else Except.error "Expecting property name enclosed in double quotes"
    | '"' :: rest =>
        match parseStringBody [] rest with
        | Except.error e => Except.error e
        | Except.ok (cs, afterKey) =>
          let key := String.mk cs
          match afterKey.dropWhile isJsonWs with
          | ':' :: afterColon =>
              match parseValue fuel (afterColon.dropWhile isJsonWs) with
              | Except.error e => Except.error e
              | Except.ok (v, afterVal) =>
                let acc := dictInsert acc key v
                match afterVal.dropWhile isJsonWs with
                | ',' :: afterComma =>
                    match afterComma.dropWhile isJsonWs with
                    | '"' :: r => parseObjBody fuel ('"' :: r) acc
                    | _ => Except.error "Expecting property name enclosed in double quotes"
                | '}' :: rest2 => Except.ok (Json.obj acc, rest2)
                | _ => Except.error "Expecting ',' delimiter"
          | _ => Except.error "Expecting ':' delimiter"
    | _ => Except.error "Expecting property name enclosed in double quotes"

/-- Array elements after `[` (leading whitespace already skipped).
`first` marks that no element has been parsed yet, so `]` closes an
empty array. -/
def parseArrBody (fuel : Nat) (l : List Char) (first : Bool) (acc : List Json) :
    Except String (Json × List Char) :=
  match fuel with
  | 0 => Except.error "Nesting too deep"
  | fuel + 1 =>
    match l with
    | ']' :: rest =>
        if first then Except.ok (Json.arr [], rest)
        else Except.error "Expecting value"
    | _ =>
        match parseValue fuel l with
        | Except.error e => Except.error e
        | Except.ok (v, afterVal) =>
          let acc := acc ++ [v]
          match afterVal.dropWhile isJsonWs with
          | ',' :: afterComma => parseArrBody fuel (afterComma.dropWhile isJsonWs) false acc
          | ']' :: rest2 => Except.ok (Json.arr acc, rest2)
          | _ => Except.error "Expecting ',' delimiter"

end

/-- Python `json.loads` on a string: skip leading whitespace, parse one
value, require only whitespace afterward. -/
def jsonLoads (s : String) : Except String Json :=
  match parseValue ((s.toList.dropWhile isJsonWs).length + 1) (s.toList.dropWhile isJsonWs) with
  | Except.error e => Except.error e
  | Except.ok (v, rest) =>
      if (rest.dropWhile isJsonWs).isEmpty then Except.ok v
      else Except.error "Extra data"

/-! ## Fence stripping

`re.search(r"```json\s*(\{.*?\})\s*```", response_text, re.DOTALL)` from
`grade_writing`: the leftmost occurrence of a ```` ```json ```` fence
whose body is brace-delimited, with the lazy `.*?` stopping at the first
closing brace that is followed by optional whitespace and a closing
fence.  `reSearchFence` returns capture group 1. -/

/-- The literal ````json` that opens a fence. -/
def jsonFenceOpen : List Char := ['`', '`', '`', 'j', 's', 'o', 'n']

/-- The literal ```` ``` ```` that closes a fence. -/
def fence3 : List Char := ['`', '`', '`']

/-- Does `\s*```` ``` ```` match at this point?  (`\s*` must stop at the
first non-whitespace character, since a backtick is not whitespace.) -/
def fenceFollows (l : List Char) : Bool :=
  fence3.isPrefixOf (l.dropWhile isSpace)

/-- The lazy scan for `.*?\}` followed by `\s*```` ``` ````: stop at the
first `}` whose remainder matches the closing fence. Returns the group
characters after the opening brace (closing brace included). -/
def lazyBody (acc : List Char) : List Char → Option (List Char)
  | [] => none
  | c :: rest =>
      if c = '}' && fenceFollows rest then some (acc.reverse ++ ['}'])
      else lazyBody (c :: acc) rest

/-- Try to match the fence regex at this exact position. -/
def matchFrom (l : List Char) : Option (List Char) :=
  if jsonFenceOpen.isPrefixOf l then
    match (l.drop 7).dropWhile isSpace with
    | '{' :: body => (lazyBody [] body).map (fun g => '{' :: g)
    | _ => none
  else none

/-- `re.search`: try every start position, leftmost first. -/
def reSearchFence : List Char → Option (List Char)
  | [] => none
  | c :: rest =>
      match matchFrom (c :: rest) with
      | some g => some g
      | none => reSearchFence rest

/-- `cleaned_text` of `grade_writing`: the fenced body when the regex
matches, otherwise the whole response stripped. -/
def cleanedOf (responseText : String) : String :=
  match reSearchFence responseText.toList with
  | some g => String.mk g
  | none => pyStrip responseText

/-- `cleaned_text.strip().startswith(('\x7b', '['))`. -/
def startsWithBrace (s : String) : Bool :=
  match s.toList with
  | '{' :: _ => true
  | '[' :: _ => true
  | _ => false

/-! ## The pydantic response models

Transcribed from `src/main.py` (classes `ParagraphResponse`,
`QuizResponse`, `WorksheetResponse` and their parts).  `score` in
`RubricItem` is `int`; `max_score`/`obtained_score` in
`ScoreBreakdownItem` are `Union[str, int, float]`; the two
`overall_feedback*` fields of `WorksheetResponse` are `Optional[str] =
None`.  The field `section` of `ScoreBreakdownItem` is spelled
`section_label` because `section` is a Lean keyword. -/

structure ErrorAnalysisItem where
  original_sentence : String
  error_type : String
  error_content : String
  suggestion : String
deriving Repr, DecidableEq

structure RubricItem where
  item : String
  score : Int
  comment : String
deriving Repr, DecidableEq

structure RubricEvaluation where
  structure_performance : List RubricItem
  content_language : List RubricItem
deriving Repr, DecidableEq

structure OverallAssessment where
  total_score : String
  suggested_grade : String
  grade_basis : String
  general_comment : String
deriving Repr, DecidableEq

structure ParagraphResponse where
  submissionType : String
  error_analysis : List ErrorAnalysisItem
  rubric_evaluation : RubricEvaluation
  overall_assessment : OverallAssessment
  model_paragraph : String
  teacher_summary_feedback : String
deriving Repr, DecidableEq

structure ErrorAnalysisTableItem where
  original_sentence : String
  error_type : String
  problem_description : String
  suggestion : String
deriving Repr, DecidableEq

structure SummaryFeedback where
  summary_feedback : String
  total_score_display : String
  suggested_grade_display : String
  grade_basis_display : String
deriving Repr, DecidableEq

structure RevisedDemonstration where
  original_with_errors_highlighted : String
  suggested_revision : String
deriving Repr, DecidableEq

structure QuizResponse where
  submissionType : String
  error_analysis_table : List ErrorAnalysisTableItem
  summary_feedback_for_student : SummaryFeedback
  revised_demonstration : RevisedDemonstration
  positive_learning_feedback : String
deriving Repr, DecidableEq

structure QuestionFeedback where
  question_number : String
  student_answer : String
  is_correct : String
  comment : String
  correct_answer : String
  answer_source_query : String
  answer_source_content : String
deriving Repr, DecidableEq

structure SectionFeedback where
  section_title : String
  questions_feedback : List QuestionFeedback
  section_summary : String
deriving Repr, DecidableEq

/-- `Union[str, int, float]` of the two score fields. -/
inductive ScoreVal where
  | s (v : String)
  | i (v : Int)
  | f (lit : String)
deriving Repr, DecidableEq

structure ScoreBreakdownItem where
  section_label : String
  max_score : ScoreVal
  obtained_score : ScoreVal
deriving Repr, DecidableEq

structure WorksheetResponse where
  submissionType : String
  title : String
  sections : List SectionFeedback
  overall_score_summary_title : String
  score_breakdown_table : List ScoreBreakdownItem
  final_total_score_text : String
  final_suggested_grade_title : String
  final_suggested_grade_text : String
  overall_feedback_title : Option String
  overall_feedback : Option String
deriving Repr, DecidableEq

/-! ## Validators (`Model.model_validate(ai_json)`)

pydantic v2 validation of a decoded JSON value, on the behaviours the
claims exercise: required fields must be present with the declared
shape, `Optional[str] = None` fields may be absent or `null`, the
`Union[str, int, float]` fields accept exactly those three shapes, and
unknown keys are ignored.  (Lax-mode numeric coercions — an `int` field
accepting `"3"` or `3.0` — are not modelled; no claim quantifies over
such inputs.)  Validation failure carries a message naming the field. -/

/-- Required field of string shape. -/
def reqStr (kvs : List (String × Json)) (k : String) : Except String String :=
  match getField kvs k with
  | some (Json.str s) => Except.ok s
  | some _ => Except.error (k ++ ": Input should be a valid string")
  | none => Except.error (k ++ ": Field required")

/-- Required field of integer shape. -/
def reqInt (kvs : List (String × Json)) (k : String) : Except String Int :=
  match getField kvs k with
  | some (Json.int n) => Except.ok n
  | some _ => Except.error (k ++ ": Input should be a valid integer")
  | none => Except.error (k ++ ": Field required")

/-- Required `Union[str, int, float]` field. -/
def reqScore (kvs : List (String × Json)) (k : String) : Except String ScoreVal :=
  match getField kvs k with
  | some (Json.str s) => Except.ok (ScoreVal.s s)
  | some (Json.int n) => Except.ok (ScoreVal.i n)
  | some (Json.float lit) => Except.ok (ScoreVal.f lit)
  | some _ => Except.error (k ++ ": Input should be a valid string, integer or number")
  | none => Except.error (k ++ ": Field required")

/-- `Optional[str] = None` field: absent or `null` becomes `none`. -/
def optStr (kvs : List (String × Json)) (k : String) : Except String (Option String) :=
  match getField kvs k with
  | some (Json.str s) => Except.ok (some s)
  | some Json.null => Except.ok none
  | some _ => Except.error (k ++ ": Input should be a valid string")
  | none => Except.ok none

/-- Validate every element of a list. -/
def listMapE (f : Json → Except String α) : List Json → Except String (List α)
  | [] => Except.ok []
  | x :: xs => do
      let a ← f x
      let as ← listMapE f xs
      Except.ok (a :: as)

/-- Required field holding a list, each element validated by `f`. -/
def reqList (f : Json → Except String α) (kvs : List (String × Json)) (k : String) :
    Except String (List α) :=
  match getField kvs k with
  | some (Json.arr xs) => listMapE f xs
  | some _ => Except.error (k ++ ": Input should be a valid list")
  | none => Except.error (k ++ ": Field required")

/-- Required field holding a nested model, validated by `f`. -/
def reqObj (f : Json → Except String α) (kvs : List (String × Json)) (k : String) :
    Except String α :=
  match getField kvs k with
  | some j => f j
  | none => Except.error (k ++ ": Field required")

def validateErrorAnalysisItem : Json → Except String ErrorAnalysisItem
  | Json.obj kvs => do
      let a ← reqStr kvs "original_sentence"
      let b ← reqStr kvs "error_type"
      let c ← reqStr kvs "error_content"
      let d ← reqStr kvs "suggestion"
      Except.ok ⟨a, b, c, d⟩
  | _ => Except.error "ErrorAnalysisItem: Input should be an object"

def validateRubricItem : Json → Except String RubricItem
  | Json.obj kvs => do
      let a ← reqStr kvs "item"
      let b ← reqInt kvs "score"
      let c ← reqStr kvs "comment"
      Except.ok ⟨a, b, c⟩
  | _ => Except.error "RubricItem: Input should be an object"

def validateRubricEvaluation : Json → Except String RubricEvaluation
  | Json.obj kvs => do
      let a ← reqList validateRubricItem kvs "structure_performance"
      let b ← reqList validateRubricItem kvs "content_language"
      Except.ok ⟨a, b⟩
  | _ => Except.error "RubricEvaluation: Input should be an object"

def validateOverallAssessment : Json → Except String OverallAssessment
  | Json.obj kvs => do
      let a ← reqStr kvs "total_score"
      let b ← reqStr kvs "suggested_grade"
      let c ← reqStr kvs "grade_basis"
      let d ← reqStr kvs "general_comment"
      Except.ok ⟨a, b, c, d⟩
  | _ => Except.error "OverallAssessment: Input should be an object"

def validateParagraph : Json → Except String ParagraphResponse
  | Json.obj kvs => do
      let a ← reqStr kvs "submissionType"
      let b ← reqList validateErrorAnalysisItem kvs "error_analysis"
      let c ← reqObj validateRubricEvaluation kvs "rubric_evaluation"
      let d ← reqObj validateOverallAssessment kvs "overall_assessment"
      let e ← reqStr kvs "model_paragraph"
      let f ← reqStr kvs "teacher_summary_feedback"
      Except.ok ⟨a, b, c, d, e, f⟩
  | _ => Except.error "ParagraphResponse: Input should be an object"

def validateErrorAnalysisTableItem : Json → Except String ErrorAnalysisTableItem
  | Json.obj kvs => do
      let a ← reqStr kvs "original_sentence"
      let b ← reqStr kvs "error_type"
      let c ← reqStr kvs "problem_description"
      let d ← reqStr kvs "suggestion"
      Except.ok ⟨a, b, c, d⟩
  | _ => Except.error "ErrorAnalysisTableItem: Input should be an object"

def validateSummaryFeedback : Json → Except String SummaryFeedback
  | Json.obj kvs => do
      let a ← reqStr kvs "summary_feedback"
      let b ← reqStr kvs "total_score_display"
      let c ← reqStr kvs "suggested_grade_display"
      let d ← reqStr kvs "grade_basis_display"
      Except.ok ⟨a, b, c, d⟩
  | _ => Except.error "SummaryFeedback: Input should be an object"

def validateRevisedDemonstration : Json → Except String RevisedDemonstration
  | Json.obj kvs => do
      let a ← reqStr kvs "original_with_errors_highlighted"
      let b ← reqStr kvs "suggested_revision"
      Except.ok ⟨a, b⟩
  | _ => Except.error "RevisedDemonstration: Input should be an object"

def validateQuiz : Json → Except String QuizResponse
  | Json.obj kvs => do
      let a ← reqStr kvs "submissionType"
      let b ← reqList validateErrorAnalysisTableItem kvs "error_analysis_table"
      let c ← reqObj validateSummaryFeedback kvs "summary_feedback_for_student"
      let d ← reqObj validateRevisedDemonstration kvs "revised_demonstration"
      let e ← reqStr kvs "positive_learning_feedback"
      Except.ok ⟨a, b, c, d, e⟩
  | _ => Except.error "QuizResponse: Input should be an object"

def validateQuestionFeedback : Json → Except String QuestionFeedback
  | Json.obj kvs => do
      let a ← reqStr kvs "question_number"
      let b ← reqStr kvs "student_answer"
      let c ← reqStr kvs "is_correct"
      let d ← reqStr kvs "comment"
      let e ← reqStr kvs "correct_answer"
      let f ← reqStr kvs "answer_source_query"
      let g ← reqStr kvs "answer_source_content"
      Except.ok ⟨a, b, c, d, e, f, g⟩
  | _ => Except.error "QuestionFeedback: Input should be an object"

def validateSectionFeedback : Json → Except String SectionFeedback
  | Json.obj kvs => do
      let a ← reqStr kvs "section_title"
      let b ← reqList validateQuestionFeedback kvs "questions_feedback"
      let c ← reqStr kvs "section_summary"
      Except.ok ⟨a, b, c⟩
  | _ => Except.error "SectionFeedback: Input should be an object"

def validateScoreBreakdownItem : Json → Except String ScoreBreakdownItem
  | Json.obj kvs => do
      let a ← reqStr kvs "section"
      let b ← reqScore kvs "max_score"
      let c ← reqScore kvs "obtained_score"
      Except.ok ⟨a, b, c⟩
  | _ => Except.error "ScoreBreakdownItem: Input should be an object"

def validateWorksheet : Json → Except String WorksheetResponse
  | Json.obj kvs => do
      let a ← reqStr kvs "submissionType"
      let b ← reqStr kvs "title"
      let c ← reqList validateSectionFeedback kvs "sections"
      let d ← reqStr kvs "overall_score_summary_title"
      let e ← reqList validateScoreBreakdownItem kvs "score_breakdown_table"
      let f ← reqStr kvs "final_total_score_text"
      let g ← reqStr kvs "final_suggested_grade_title"
      let h ← reqStr kvs "final_suggested_grade_text"
      let i ← optStr kvs "overall_feedback_title"
      let j ← optStr kvs "overall_feedback"
      Except.ok ⟨a, b, c, d, e, f, g, h, i, j⟩
  | _ => Except.error "WorksheetResponse: Input should be an object"

/-! ## Serialization of validated models (`model_dump`)

Fields in declaration order; `Optional[str]` fields dump as `null` when
absent.  Used to state that validation loses no field. -/

def errorAnalysisItemJson (r : ErrorAnalysisItem) : Json :=
  Json.obj [("original_sentence", Json.str r.original_sentence),
            ("error_type", Json.str r.error_type),
            ("error_content", Json.str r.error_content),
            ("suggestion", Json.str r.suggestion)]

def rubricItemJson (r : RubricItem) : Json :=
  Json.obj [("item", Json.str r.item),
            ("score", Json.int r.score),
            ("comment", Json.str r.comment)]

def rubricEvaluationJson (r : RubricEvaluation) : Json :=
  Json.obj [("structure_performance", Json.arr (r.structure_performance.map rubricItemJson)),
            ("content_language", Json.arr (r.content_language.map rubricItemJson))]

def overallAssessmentJson (r : OverallAssessment) : Json :=
  Json.obj [("total_score", Json.str r.total_score),
            ("suggested_grade", Json.str r.suggested_grade),
            ("grade_basis", Json.str r.grade_basis),
            ("general_comment", Json.str r.general_comment)]

def paragraphJson (r : ParagraphResponse) : Json :=
  Json.obj [("submissionType", Json.str r.submissionType),
            ("error_analysis", Json.arr (r.error_analysis.map errorAnalysisItemJson)),
            ("rubric_evaluation", rubricEvaluationJson r.rubric_evaluation),
            ("overall_assessment", overallAssessmentJson r.overall_assessment),
            ("model_paragraph", Json.str r.model_paragraph),
            ("teacher_summary_feedback", Json.str r.teacher_summary_feedback)]

def errorAnalysisTableItemJson (r : ErrorAnalysisTableItem) : Json :=
  Json.obj [("original_sentence", Json.str r.original_sentence),
            ("error_type", Json.str r.error_type),
            ("problem_description", Json.str r.problem_description),
            ("suggestion", Json.str r.suggestion)]

def summaryFeedbackJson (r : SummaryFeedback) : Json :=
  Json.obj [("summary_feedback", Json.str r.summary_feedback),
            ("total_score_display", Json.str r.total_score_display),
            ("suggested_grade_display", Json.str r.suggested_grade_display),
            ("grade_basis_display", Json.str r.grade_basis_display)]

def revisedDemonstrationJson (r : RevisedDemonstration) : Json :=
  Json.obj [("original_with_errors_highlighted", Json.str r.original_with_errors_highlighted),
            ("suggested_revision", Json.str r.suggested_revision)]

def quizJson (r : QuizResponse) : Json :=
  Json.obj [("submissionType", Json.str r.submissionType),
            ("error_analysis_table", Json.arr (r.error_analysis_table.map errorAnalysisTableItemJson)),
            ("summary_feedback_for_student", summaryFeedbackJson r.summary_feedback_for_student),
            ("revised_demonstration", revisedDemonstrationJson r.revised_demonstration),
            ("positive_learning_feedback", Json.str r.positive_learning_feedback)]

def questionFeedbackJson (r : QuestionFeedback) : Json :=
  Json.obj [("question_number", Json.str r.question_number),
            ("student_answer", Json.str r.student_answer),
            ("is_correct", Json.str r.is_correct),
            ("comment", Json.str r.comment),
            ("correct_answer", Json.str r.correct_answer),
            ("answer_source_query", Json.str r.answer_source_query),
            ("answer_source_content", Json.str r.answer_source_content)]

def sectionFeedbackJson (r : SectionFeedback) : Json :=
  Json.obj [("section_title", Json.str r.section_title),
            ("questions_feedback", Json.arr (r.questions_feedback.map questionFeedbackJson)),
            ("section_summary", Json.str r.section_summary)]

def scoreValJson : ScoreVal → Json
  | ScoreVal.s v => Json.str v
  | ScoreVal.i v => Json.int v
  | ScoreVal.f lit => Json.float lit

def scoreBreakdownItemJson (r : ScoreBreakdownItem) : Json :=
  Json.obj [("section", Json.str r.section_label),
            ("max_score", scoreValJson r.max_score),
            ("obtained_score", scoreValJson r.obtained_score)]

def optStrJson : Option String → Json
  | some s => Json.str s
  | none => Json.null

def worksheetJson (r : WorksheetResponse) : Json :=
  Json.obj [("submissionType", Json.str r.submissionType),
            ("title", Json.str r.title),
            ("sections", Json.arr (r.sections.map sectionFeedbackJson)),
            ("overall_score_summary_title", Json.str r.overall_score_summary_title),
            ("score_breakdown_table", Json.arr (r.score_breakdown_table.map scoreBreakdownItemJson)),
            ("final_total_score_text", Json.str r.final_total_score_text),
            ("final_suggested_grade_title", Json.str r.final_suggested_grade_title),
            ("final_suggested_grade_text", Json.str r.final_suggested_grade_text),
            ("overall_feedback_title", optStrJson r.overall_feedback_title),
            ("overall_feedback", optStrJson r.overall_feedback)]

/-! ## Schema-match predicates

`matchesParagraph` / `matchesQuiz` / `matchesWorksheet` spell out, as
decidable predicates, when a decoded payload matches a category's
designated schema exactly in the sense of the specification: every
mandatory field present with the correct basic shape, the
`Union[str, int, float]` score fields of string or number shape, the
explicitly optional fields absent, `null` or string, and no keys
outside the schema.  Keys are required to be distinct, as they are in
any object produced by the JSON decoder. -/

/-- No repeated keys. -/
def nodupKeys : List (String × Json) → Bool
  | [] => true
  | (k, _) :: rest => !(rest.any (fun p => p.1 == k)) && nodupKeys rest

/-- Every key drawn from `allowed`. -/
def keysAmong (kvs : List (String × Json)) (allowed : List String) : Bool :=
  kvs.all (fun p => allowed.contains p.1)

/-- The field `k` is present and satisfies `p`. -/
def fieldIs (p : Json → Bool) (kvs : List (String × Json)) (k : String) : Bool :=
  match getField kvs k with
  | some j => p j
  | none => false

/-- The field `k` is absent, `null`, or a string. -/
def fieldOptStr (kvs : List (String × Json)) (k : String) : Bool :=
  match getField kvs k with
  | some (Json.str _) => true
  | some Json.null => true
  | some _ => false
  | none => true

def isStr : Json → Bool
  | Json.str _ => true
  | _ => false

def isInt : Json → Bool
  | Json.int _ => true
  | _ => false

def isScore : Json → Bool
  | Json.str _ => true
  | Json.int _ => true
  | Json.float _ => true
  | _ => false

/-- A list field whose elements all satisfy `p`. -/
def isListOf (p : Json → Bool) : Json → Bool
  | Json.arr xs => xs.all p
  | _ => false

def matchesErrorAnalysisItem : Json → Bool
  | Json.obj kvs =>
      nodupKeys kvs &&
      keysAmong kvs ["original_sentence", "error_type", "error_content", "suggestion"] &&
      fieldIs isStr kvs "original_sentence" &&
      fieldIs isStr kvs "error_type" &&
      fieldIs isStr kvs "error_content" &&
      fieldIs isStr kvs "suggestion"
  | _ => false

def matchesRubricItem : Json → Bool
  | Json.obj kvs =>
      nodupKeys kvs &&
      keysAmong kvs ["item", "score", "comment"] &&
      fieldIs isStr kvs "item" &&
      fieldIs isInt kvs "score" &&
      fieldIs isStr kvs "comment"
  | _ => false

def matchesRubricEvaluation : Json → Bool
  | Json.obj kvs =>
      nodupKeys kvs &&
      keysAmong kvs ["structure_performance", "content_language"] &&
      fieldIs (isListOf matchesRubricItem) kvs "structure_performance" &&
      fieldIs (isListOf matchesRubricItem) kvs "content_language"
  | _ => false

def matchesOverallAssessment : Json → Bool
  | Json.obj kvs =>
      nodupKeys kvs &&
      keysAmong kvs ["total_score", "suggested_grade", "grade_basis", "general_comment"] &&
      fieldIs isStr kvs "total_score" &&
      fieldIs isStr kvs "suggested_grade" &&
      fieldIs isStr kvs "grade_basis" &&
      fieldIs isStr kvs "general_comment"
  | _ => false

def matchesParagraph : Json → Bool
  | Json.obj kvs =>
      nodupKeys kvs &&
      keysAmong kvs ["submissionType", "error_analysis", "rubric_evaluation",
                     "overall_assessment", "model_paragraph", "teacher_summary_feedback"] &&
      fieldIs isStr kvs "submissionType" &&
      fieldIs (isListOf matchesErrorAnalysisItem) kvs "error_analysis" &&
      fieldIs matchesRubricEvaluation kvs "rubric_evaluation" &&
      fieldIs matchesOverallAssessment kvs "overall_assessment" &&
      fieldIs isStr kvs "model_paragraph" &&
      fieldIs isStr kvs "teacher_summary_feedback"
  | _ => false

def matchesErrorAnalysisTableItem : Json → Bool
  | Json.obj kvs =>
      nodupKeys kvs &&
      keysAmong kvs ["original_sentence", "error_type", "problem_description", "suggestion"] &&
      fieldIs isStr kvs "original_sentence" &&
      fieldIs isStr kvs "error_type" &&
      fieldIs isStr kvs "problem_description" &&
      fieldIs isStr kvs "suggestion"
  | _ => false

def matchesSummaryFeedback : Json → Bool
  | Json.obj kvs =>
      nodupKeys kvs &&
      keysAmong kvs ["summary_feedback", "total_score_display",
                     "suggested_grade_display", "grade_basis_display"] &&
      fieldIs isStr kvs "summary_feedback" &&
      fieldIs isStr kvs "total_score_display" &&
      fieldIs isStr kvs "suggested_grade_display" &&
      fieldIs isStr kvs "grade_basis_display"
  | _ => false

def matchesRevisedDemonstration : Json → Bool
  | Json.obj kvs =>
      nodupKeys kvs &&
      keysAmong kvs ["original_with_errors_highlighted", "suggested_revision"] &&
      fieldIs isStr kvs "original_with_errors_highlighted" &&
      fieldIs isStr kvs "suggested_revision"
  | _ => false

def matchesQuiz : Json → Bool
  | Json.obj kvs =>
      nodupKeys kvs &&
      keysAmong kvs ["submissionType", "error_analysis_table", "summary_feedback_for_student",
                     "revised_demonstration", "positive_learning_feedback"] &&
      fieldIs isStr kvs "submissionType" &&
      fieldIs (isListOf matchesErrorAnalysisTableItem) kvs "error_analysis_table" &&
      fieldIs matchesSummaryFeedback kvs "summary_feedback_for_student" &&
      fieldIs matchesRevisedDemonstration kvs "revised_demonstration" &&
      fieldIs isStr kvs "positive_learning_feedback"
  | _ => false

def matchesQuestionFeedback : Json → Bool
  | Json.obj kvs =>
      nodupKeys kvs &&
      keysAmong kvs ["question_number", "student_answer", "is_correct", "comment",
                     "correct_answer", "answer_source_query", "answer_source_content"] &&
      fieldIs isStr kvs "question_number" &&
      fieldIs isStr kvs "student_answer" &&
      fieldIs isStr kvs "is_correct" &&
      fieldIs isStr kvs "comment" &&
      fieldIs isStr kvs "correct_answer" &&
      fieldIs isStr kvs "answer_source_query" &&
      fieldIs isStr kvs "answer_source_content"
  | _ => false

def matchesSectionFeedback : Json → Bool
  | Json.obj kvs =>
      nodupKeys kvs &&
      keysAmong kvs ["section_title", "questions_feedback", "section_summary"] &&
      fieldIs isStr kvs "section_title" &&
      fieldIs (isListOf matchesQuestionFeedback) kvs "questions_feedback" &&
      fieldIs isStr kvs "section_summary"
  | _ => false

def matchesScoreBreakdownItem : Json → Bool
  | Json.obj kvs =>
      nodupKeys kvs &&
      keysAmong kvs ["section", "max_score", "obtained_score"] &&
      fieldIs isStr kvs "section" &&
      fieldIs isScore kvs "max_score" &&
      fieldIs isScore kvs "obtained_score"
  | _ => false

def matchesWorksheet : Json → Bool
  | Json.obj kvs =>
      nodupKeys kvs &&
      keysAmong kvs ["submissionType", "title", "sections", "overall_score_summary_title",
                     "score_breakdown_table", "final_total_score_text",
                     "final_suggested_grade_title", "final_suggested_grade_text",
                     "overall_feedback_title", "overall_feedback"] &&
      fieldIs isStr kvs "submissionType" &&
      fieldIs isStr kvs "title" &&
      fieldIs (isListOf matchesSectionFeedback) kvs "sections" &&
      fieldIs isStr kvs "overall_score_summary_title" &&
      fieldIs (isListOf matchesScoreBreakdownItem) kvs "score_breakdown_table" &&
      fieldIs isStr kvs "final_total_score_text" &&
      fieldIs isStr kvs "final_suggested_grade_title" &&
      fieldIs isStr kvs "final_suggested_grade_text" &&
      fieldOptStr kvs "overall_feedback_title" &&
      fieldOptStr kvs "overall_feedback"
  | _ => false

/-- The schema designated for a submission category (the four literal
category strings of `grade_writing`). -/
def schemaMatches (st : String) (v : Json) : Bool :=
  if st = "段落寫作評閱" then matchesParagraph v
  else if st = "測驗寫作評改" then matchesQuiz v
  else if st = "學習單批改" || st = "讀寫習作評分" then matchesWorksheet v
  else false

/-! ## The response normalizer (stage 7 of `grade_writing`)

The embedded pipeline from the candidate check (line 803) to the
category dispatch (lines 853–856).  Each failure constructor corresponds
to one `raise HTTPException` site and carries the diagnostic data the
code has there (the logged original response for the empty/invalid
branch, the parser message and the offending cleaned text for the
malformed branch); `toHttp` maps it to the status code and the detail
string the caller receives. -/

/-- A model response: the text fragments of each candidate, plus the
optional block reason of the prompt feedback. -/
structure GeminiResponse where
  candidates : List (List String)
  blockReason : Option String
deriving Repr

/-- The typed value returned on success (the `response_model` union,
plus the raw-JSON fallthrough of the final `else`). -/
inductive ApiResult where
  | paragraph (r : ParagraphResponse)
  | quiz (r : QuizResponse)
  | worksheet (r : WorksheetResponse)
  | raw (v : Json)
deriving Repr

/-- One failure per `raise` site of the normalization stages. -/
inductive NormError where
  | blocked (reason : String)
  | emptyOrInvalidJson (responseText : String)
  | malformedJson (parserMsg : String) (offendingText : String)
  | schemaViolation (msg : String)
deriving Repr, DecidableEq

inductive NormResult where
  | ok (r : ApiResult)
  | err (e : NormError)
deriving Repr

/-- The `HTTPException` the caller sees for each failure (status code,
detail).  A pydantic `ValidationError` escapes to the catch-all handler
and is wrapped as an unknown internal error. -/
def toHttp : NormError → Nat × String
  | NormError.blocked reason =>
      (500, "AI 模型未返回任何回應，可能已被安全設定阻擋。原因: " ++ reason)
  | NormError.emptyOrInvalidJson _ =>
      (500, "AI 模型返回了空的或無效的 JSON 內容。 請檢查輸入內容或稍後再試。")
  | NormError.malformedJson parserMsg _ =>
      (500, "AI 模型返回的 JSON 格式錯誤: " ++ parserMsg)
  | NormError.schemaViolation msg =>
      (500, "伺服器內部發生未知錯誤: " ++ msg)

/-- Category dispatch of lines 853–856: pick the mandated pydantic model
by the literal category string; an unknown category returns the raw
decoded JSON. -/
def dispatchValidate (st : String) (v : Json) : NormResult :=
  if st = "段落寫作評閱" then
    match validateParagraph v with
    | Except.ok r => NormResult.ok (ApiResult.paragraph r)
    | Except.error m => NormResult.err (NormError.schemaViolation m)
  else if st = "測驗寫作評改" then
    match validateQuiz v with
    | Except.ok r => NormResult.ok (ApiResult.quiz r)
    | Except.error m => NormResult.err (NormError.schemaViolation m)
  else if st = "學習單批改" || st = "讀寫習作評分" then
    match validateWorksheet v with
    | Except.ok r => NormResult.ok (ApiResult.worksheet r)
    | Except.error m => NormResult.err (NormError.schemaViolation m)
  else NormResult.ok (ApiResult.raw v)

/-- Stage 7 of `grade_writing`: candidate check, fragment
concatenation, fence stripping, the empty/shape gate, strict JSON
decoding, and schema validation. -/
def normalizeResponse (st : String) (resp : GeminiResponse) : NormResult :=
  match resp.candidates with
  | [] =>
      NormResult.err (NormError.blocked (resp.blockReason.getD "未知原因"))
  | cand :: _ =>
      let responseText := String.join cand
      let cleaned := cleanedOf responseText
      if cleaned = "" || !startsWithBrace (pyStrip cleaned) then
        NormResult.err (NormError.emptyOrInvalidJson responseText)
      else
        match jsonLoads cleaned with
        | Except.error e => NormResult.err (NormError.malformedJson e cleaned)
        | Except.ok v => dispatchValidate st v

/-- The serialization of a successful result. -/
def resultToJson : ApiResult → Json
  | ApiResult.paragraph r => paragraphJson r
  | ApiResult.quiz r => quizJson r
  | ApiResult.worksheet r => worksheetJson r
  | ApiResult.raw v => v

/-- Does a result carry the schema designated for the category? -/
def resultMatchesCategory (st : String) (res : ApiResult) : Bool :=
  if st = "段落寫作評閱" then
    match res with
    | ApiResult.paragraph _ => true
    | _ => false
  else if st = "測驗寫作評改" then
    match res with
    | ApiResult.quiz _ => true
    | _ => false
  else if st = "學習單批改" || st = "讀寫習作評分" then
    match res with
    | ApiResult.worksheet _ => true
    | _ => false
  else false

/-! ## The content acquirer (stage 2 of `grade_writing`)

Lines 657–684: text passthrough, or per-file OCR with in-band error
markers, discarding failed or blank results, and raising 400 when no
usable content remains.  `perform_ocr` is embedded over the outcome of
the external Vision call; the request-handler loop receives each file's
OCR output and raw bytes. -/

/-- Outcome of one Cloud Vision call for one uploaded file. -/
inductive OcrOutcome where
  | noFile
  | visionFailure (msg : String)
  | detected (text : String)
deriving Repr

/-- `perform_ocr`: failures are reported in-band as strings carrying
the `OCR_ERROR:` marker; a success returns the (possibly empty)
detected text. -/
def perform_ocr : OcrOutcome → String
  | OcrOutcome.noFile => "OCR_ERROR: 未提供圖片檔案。"
  | OcrOutcome.visionFailure msg => "OCR_ERROR: " ++ msg
  | OcrOutcome.detected text => text

/-- The filter of the loop body:
`"OCR_ERROR:" not in ocr_text and ocr_text.strip()`. -/
def keepOcr (t : String) : Bool :=
  !containsSub "OCR_ERROR:" t && pyStrip t != ""

/-- One uploaded file as the loop sees it: the string returned by
`perform_ocr` for it, and its raw bytes (opaque). -/
structure UploadedFile where
  ocrOut : String
  imageData : String
deriving Repr

/-- A content part sent to the model. -/
inductive GPart where
  | text (s : String)
  | image (data : String)
deriving Repr, DecidableEq

/-- The text part prepended before the student's images. -/
def introImagesMsg : String :=
  "以下是學生提交的原始作業圖片，供您參考其版面和手寫內容："

/-- The two 400 failures of stage 2. -/
inductive AcquireError where
  | allOcrFailed
  | noInput (st : String)
deriving Repr, DecidableEq

/-- Status code and detail of a stage-2 failure. -/
def acquireHttp : AcquireError → Nat × String
  | AcquireError.allOcrFailed => (400, "所有圖片的 OCR 均失敗，且未提供純文字輸入。")
  | AcquireError.noInput st => (400, "對於 '" ++ st ++ "'，必須提供純文字輸入或圖片檔案。")

/-- The `for file in student_files` loop: collect the OCR results that
pass the filter, and append one image part per file (appended whether or
not its OCR succeeded). -/
def ocrLoop : List UploadedFile → List String × List GPart
  | [] => ([], [])
  | f :: fs =>
      let (rs, ps) := ocrLoop fs
      ((if keepOcr f.ocrOut then f.ocrOut :: rs else rs),
       GPart.image f.imageData :: ps)

/-- Stage 2: returns `essay_content` and the parts accumulated in
`contents_for_gemini` (before the final prompt is inserted). -/
def stage2Files (st : String) (files : List UploadedFile) :
    Except AcquireError (String × List GPart) :=
  match files with
  | [] => Except.error (AcquireError.noInput st)
  | _ =>
      let (ocrResults, imageParts) := ocrLoop files
      if ocrResults.isEmpty then Except.error AcquireError.allOcrFailed
      else Except.ok (String.intercalate "\n\n" ocrResults,
                      GPart.text introImagesMsg :: imageParts)

/-- Stage 2 including the `if text:` truthiness test (an empty string is
falsy and falls through to the files). -/
def stage2 (st : String) (text : Option String) (files : List UploadedFile) :
    Except AcquireError (String × List GPart) :=
  match text with
  | some t => if t = "" then stage2Files st files else Except.ok (t, [])
  | none => stage2Files st files

/-- `contents_for_gemini` as sent to the model: the assembled prompt
text inserted at position 0 (line 776) in front of the stage-2 parts. -/
def buildContents (st : String) (text : Option String) (files : List UploadedFile)
    (finalPromptText : String) : Except AcquireError (List GPart) :=
  match stage2 st text files with
  | Except.error e => Except.error e
  | Except.ok (_, parts) => Except.ok (GPart.text finalPromptText :: parts)

/-- Classifier for C9: text part or image part. -/
def GPart.isText : GPart → Bool
  | GPart.text _ => true
  | GPart.image _ => false

/-- Once an image part occurs, only image parts may follow. -/
def textsBeforeImages : List GPart → Bool
  | [] => true
  | GPart.text _ :: rest => textsBeforeImages rest
  | GPart.image _ :: rest => rest.all (fun p => !p.isText)

/-! ## JSON serialization (`json.dumps(..., ensure_ascii=False, indent=2)`)

Needed by stage 4 of `grade_writing` to turn a resolved standard-answer
document into the template substitution value.  Floats are emitted as
their stored lexeme (CPython would emit `repr(float)`; no claim
observes the difference). -/

/-- String-body escaping of `json.dumps` with `ensure_ascii=False`. -/
def jsonEscapeChar (c : Char) : List Char :=
  if c = '"' then ['\\', '"']
  else if c = '\\' then ['\\', '\\']
  else if c = '\n' then ['\\', 'n']
  else if c = '\t' then ['\\', 't']
  else if c = '\r' then ['\\', 'r']
  else if c = '\x08' then ['\\', 'b']
  else if c = '\x0c' then ['\\', 'f']
  else if c.toNat < 0x20 then
    let d1 := Nat.digitChar (c.toNat / 16)
    let d2 := Nat.digitChar (c.toNat % 16)
    ['\\', 'u', '0', '0', d1, d2]
  else [c]

/-- A JSON string literal. -/
def jsonQuote (s : String) : String :=
  String.mk (['"'] ++ s.toList.flatMap jsonEscapeChar ++ ['"'])

/-- `indent`-many spaces. -/
def indentStr (n : Nat) : String :=
  String.mk (List.replicate n ' ')

mutual

def jsonDumps (level : Nat) : Json → String
  | Json.null => "null"
  | Json.bool b => if b then "true" else "false"
  | Json.int n => toString n
  | Json.float lit => lit
  | Json.str s => jsonQuote s
  | Json.arr [] => "[]"
  | Json.arr (x :: xs) =>
      "[\n" ++ indentStr ((level + 1) * 2) ++
      String.intercalate (",\n" ++ indentStr ((level + 1) * 2))
        (jsonDumpsList (level + 1) (x :: xs)) ++
      "\n" ++ indentStr (level * 2) ++ "]"
  | Json.obj [] => "\x7b\x7d"
  | Json.obj (kv :: kvs) =>
      "\x7b\n" ++ indentStr ((level + 1) * 2) ++
      String.intercalate (",\n" ++ indentStr ((level + 1) * 2))
        (jsonDumpsKvs (level + 1) (kv :: kvs)) ++
      "\n" ++ indentStr (level * 2) ++ "\x7d"

def jsonDumpsList (level : Nat) : List Json → List String
  | [] => []
  | x :: xs => jsonDumps level x :: jsonDumpsList level xs

def jsonDumpsKvs (level : Nat) : List (String × Json) → List String
  | [] => []
  | (k, v) :: ps => (jsonQuote k ++ ": " ++ jsonDumps level v) :: jsonDumpsKvs level ps

end

/-! ## The reference-answer resolver

`get_gcs_blob_text` (lines 549–565) and
`get_standard_answer_from_gcs` (lines 567–600), plus the stage-4 use of
the result (lines 709–754).  The blob store is an oracle from the full
object path to the outcome of the read. -/

/-- Outcome of one GCS read. -/
inductive BlobOutcome where
  | missing
  | storageFailure (msg : String)
  | content (text : String)

/-- `get_gcs_blob_text`: a missing blob returns `None`, any storage
exception is caught and returns `None`, otherwise the text. -/
def get_gcs_blob_text : BlobOutcome → Option String
  | BlobOutcome.missing => none
  | BlobOutcome.storageFailure _ => none
  | BlobOutcome.content t => some t

/-- The uncaught exception of `get_standard_answer_from_gcs`: calling
`.get` on a decoded document that is not a `dict`. -/
inductive PyExc where
  | attributeError (msg : String)
deriving Repr, DecidableEq

/-- `get_standard_answer_from_gcs`.  `storage` maps a full object path
to the outcome of reading it; everything else follows the source: build
the composite key, look up the filename, read the blob, decode, extract
`lookup_key`, with every miss returning `None` — except that a decoded
non-`dict` document raises `AttributeError`, which is not caught. -/
def get_standard_answer_from_gcs (storage : String → BlobOutcome)
    (basePath gradeLevel categoryKey : String)
    (answerMap : List (String × String)) (lookupKey : String) :
    Except PyExc (Option Json) :=
  let fileKey := gradeLevel ++ categoryKey
  match answerMap.find? (fun p => p.1 == fileKey) with
  | none => Except.ok none
  | some p =>
      let fullPath := basePath ++ p.2
      match get_gcs_blob_text (storage fullPath) with
      | none => Except.ok none
      | some jsonContent =>
          if jsonContent = "" then Except.ok none
          else
            match jsonLoads jsonContent with
            | Except.error _ => Except.ok none
            | Except.ok allData =>
                match allData with
                | Json.obj kvs =>
                    match getField kvs lookupKey with
                    | none => Except.ok none
                    | some lessonData =>
                        if jsonTruthy lessonData then Except.ok (some lessonData)
                        else Except.ok none
                | _ => Except.error (PyExc.attributeError "no attribute get")

/-- Stage 4: `standard_answers_json_str` stays `""` unless a truthy
document was resolved (lines 729–731). -/
def standardAnswersStr : Option Json → String
  | some d => if jsonTruthy d then jsonDumps 0 d else ""
  | none => ""

/-! ## Prompt templating (`base_prompt_text.format(...)`)

Python `str.format` with keyword arguments, on a scanner over the
template text: `\x7b\x7b` and `\x7d\x7d` are literal braces, `\x7b name
\x7d` is a replacement field resolved in the keyword map, a lone
`\x7d` or an unterminated field is a `ValueError`, and an unknown field
name is a `KeyError`.  The field name is what precedes the first `!`
(conversion) or `:` (format spec); conversions and format specs are
applied as the identity (the grading templates use plain `\x7bname\x7d`
fields), and nested replacement fields inside a format spec are not
modelled.  Inserted values are NOT rescanned — `str.format` never
interprets braces inside substituted values. -/

inductive FormatError where
  | keyError (k : String)
  | valueError (msg : String)
deriving Repr, DecidableEq

/-- Field name: up to the first `!` or `:`. -/
def fieldName (field : List Char) : List Char :=
  field.takeWhile (fun c => c != '!' && c != ':')

/-- The scanner.  `mode` is `none` while copying literal text and
`some acc` while reading a replacement field (accumulated reversed).
An empty field (Python auto-numbering, impossible with keyword-only
arguments) is treated as an unknown key; CPython raises `IndexError`
there — both abort. -/
def fmtScan (m : List (String × String)) :
    List Char → Option (List Char) → Except FormatError (List Char)
  | [], none => Except.ok []
  | [], some _ => Except.error (FormatError.valueError "Single opening brace in format string")
  | '\x7b' :: '\x7b' :: rest, none =>
      (fmtScan m rest none).map (fun t => '\x7b' :: t)
  | '\x7d' :: '\x7d' :: rest, none =>
      (fmtScan m rest none).map (fun t => '\x7d' :: t)
  | '\x7b' :: rest, none => fmtScan m rest (some [])
  | '\x7d' :: _, none => Except.error (FormatError.valueError "Single closing brace in format string")
  | c :: rest, none => (fmtScan m rest none).map (fun t => c :: t)
  | '\x7d' :: rest, some acc =>
      (match m.find? (fun p => p.1 == String.mk (fieldName acc.reverse)) with
       | some p => (fmtScan m rest none).map (fun t => p.2.toList ++ t)
       | none => Except.error (FormatError.keyError (String.mk (fieldName acc.reverse))))
  | c :: rest, some acc => fmtScan m rest (some (c :: acc))

/-- Python `template.format(**m)` restricted as described above. -/
def pyFormat (template : String) (m : List (String × String)) :
    Except FormatError String :=
  (fmtScan m template.toList none).map String.mk

/-- The substitution map of the `.format` call in `grade_writing`
(lines 765–775). -/
def gradeSubstitutions (bookrange learnsheets gradeLevel submissionType essayContent
    standardAnswer scoringInstructions jsonFormatExample standardAnswersJsonStr : String) :
    List (String × String) :=
  [("Book", bookrange),
   ("learnsheet", learnsheets),
   ("grade_level", gradeLevel),
   ("submission_type", submissionType),
   ("essay_content", essayContent),
   ("standard_answer_if_any", standardAnswer),
   ("scoring_instructions_if_any", scoringInstructions),
   ("json_format_example_str", jsonFormatExample),
   ("current_lesson_standard_answers_json", standardAnswersJsonStr)]

/-! ## Helper lemmas -/

theorem isPrefixOf_append_self (p t : List Char) : p.isPrefixOf (p ++ t) = true := by
  induction p with
  | nil => simp [List.isPrefixOf]
  | cons c cs ih => simp [List.isPrefixOf, ih]

theorem isSubstrL_of_prefix (p l : List Char) (h : p.isPrefixOf l = true) :
    isSubstrL p l = true := by
  cases l with
  | nil =>
      cases p with
      | nil => rfl
      | cons c cs => simp [List.isPrefixOf] at h
  | cons c rest => simp [isSubstrL, h]

theorem ocrLoop_eq (files : List UploadedFile) :
    ocrLoop files = ((files.map (fun f => f.ocrOut)).filter keepOcr,
                     files.map (fun f => GPart.image f.imageData)) := by
  induction files with
  | nil => rfl
  | cons f fs ih =>
      simp [ocrLoop, ih, List.filter_cons]

/-- Any successful run of `stage2Files` produces the intro text
followed by one image part per file. -/
theorem stage2Files_ok_shape (st : String) (files : List UploadedFile)
    (s : String) (ps : List GPart) (h : stage2Files st files = Except.ok (s, ps)) :
    ps = GPart.text introImagesMsg :: files.map (fun f => GPart.image f.imageData) := by
  cases files with
  | nil => simp [stage2Files] at h
  | cons f fs =>
      simp only [stage2Files, ocrLoop_eq] at h
      split at h
      · exact absurd h (by simp)
      · injection h with hpair
        injection hpair with hs hp
        exact hp.symm

/-- Any successful stage-2 part list is empty (text path) or the intro
text followed by one image per file. -/
theorem stage2_ok_shape (st : String) (text : Option String) (files : List UploadedFile)
    (s : String) (ps : List GPart) (h : stage2 st text files = Except.ok (s, ps)) :
    ps = [] ∨ ps = GPart.text introImagesMsg :: files.map (fun f => GPart.image f.imageData) := by
  cases text with
  | none => exact Or.inr (stage2Files_ok_shape st files s ps h)
  | some t =>
      by_cases ht : t = ""
      · subst ht
        simp only [stage2, reduceIte] at h
        exact Or.inr (stage2Files_ok_shape st files s ps h)
      · simp only [stage2, ht, ite_false, if_false] at h
        injection h with hpair
        injection hpair with hs hp
        exact Or.inl hp.symm

/-! ## Claims -/

/-- C7: the Content Acquirer returns supplied non-empty text directly
(text takes precedence over files); otherwise, over the category's file
list, every file whose OCR result fails the filter is discarded without
aborting the batch, the acquired text is the blank-line-separated
concatenation of the surviving OCR outputs in upload order, and when
nothing survives (or nothing was provided) the request fails with the
400 no-content error. -/
theorem contentAcquirer_spec (st : String) (text : Option String)
    (files : List UploadedFile) :
    (∀ t, text = some t → t ≠ "" → stage2 st text files = Except.ok (t, [])) ∧
    ((text = none ∨ text = some "") → files ≠ [] →
      ((files.map (fun f => f.ocrOut)).filter keepOcr ≠ [] →
        stage2 st text files =
          Except.ok (String.intercalate "\n\n" ((files.map (fun f => f.ocrOut)).filter keepOcr),
            GPart.text introImagesMsg :: files.map (fun f => GPart.image f.imageData))) ∧
      ((files.map (fun f => f.ocrOut)).filter keepOcr = [] →
        stage2 st text files = Except.error AcquireError.allOcrFailed ∧
        (acquireHttp AcquireError.allOcrFailed).1 = 400)) ∧
    ((text = none ∨ text = some "") → files = [] →
      stage2 st text files = Except.error (AcquireError.noInput st) ∧
      (acquireHttp (AcquireError.noInput st)).1 = 400) := by
  have hfile_ne : files ≠ [] →
      ((files.map (fun f => f.ocrOut)).filter keepOcr ≠ [] →
        stage2Files st files =
          Except.ok (String.intercalate "\n\n" ((files.map (fun f => f.ocrOut)).filter keepOcr),
            GPart.text introImagesMsg :: files.map (fun f => GPart.image f.imageData))) ∧
      ((files.map (fun f => f.ocrOut)).filter keepOcr = [] →
        stage2Files st files = Except.error AcquireError.allOcrFailed ∧
        (acquireHttp AcquireError.allOcrFailed).1 = 400) := by
    intro hne
    cases files with
    | nil => exact absurd rfl hne
    | cons f fs =>
        constructor
        · intro hkept
          simp only [stage2Files, ocrLoop_eq]
          rw [if_neg (by simpa [List.isEmpty_iff] using hkept)]
        · intro hkept
          refine ⟨?_, rfl⟩
          simp only [stage2Files, ocrLoop_eq]
          rw [if_pos (show (List.filter keepOcr (List.map (fun f => f.ocrOut) (f :: fs))).isEmpty = true by rw [hkept]; rfl)]
  have hfile_nil : files = [] →
      stage2Files st files = Except.error (AcquireError.noInput st) ∧
      (acquireHttp (AcquireError.noInput st)).1 = 400 := by
    intro hnil
    subst hnil
    exact ⟨rfl, rfl⟩
  refine ⟨?_, ?_, ?_⟩
  · intro t ht hne
    subst ht
    simp [stage2, hne]
  · intro htext hne
    have hred : stage2 st text files = stage2Files st files := by
      rcases htext with h | h <;> subst h <;> simp [stage2]
    rw [hred]
    exact hfile_ne hne
  · intro htext hnil
    have hred : stage2 st text files = stage2Files st files := by
      rcases htext with h | h <;> subst h <;> simp [stage2]
    rw [hred]
    exact hfile_nil hnil

/-- C7 witness: the three-file scenario of the claim — OCR succeeds for
files 1 and 3, fails for file 2; the acquired text is OCR(1), a blank
line, OCR(3), in upload order. -/
theorem contentAcquirer_spec_witness :
    stage2 "學習單批改" none
      [⟨"first page text", "i1"⟩, ⟨"OCR_ERROR: vision failed", "i2"⟩, ⟨"third page text", "i3"⟩] =
      Except.ok ("first page text\n\nthird page text",
        [GPart.text introImagesMsg, GPart.image "i1", GPart.image "i2", GPart.image "i3"]) := by
  have h := (contentAcquirer_spec "學習單批改" none
    [⟨"first page text", "i1"⟩, ⟨"OCR_ERROR: vision failed", "i2"⟩, ⟨"third page text", "i3"⟩]).2.1
    (Or.inl rfl) (List.cons_ne_nil _ _)
  exact (h.1 (by decide)).trans rfl

/-- C9: in every content-part sequence actually sent to the model, the
assembled instruction text sits at position zero (it is inserted at
index 0), and every text part precedes every image part. -/
theorem promptParts_text_first (st : String) (text : Option String)
    (files : List UploadedFile) (finalPromptText : String) (parts : List GPart)
    (h : buildContents st text files finalPromptText = Except.ok parts) :
    parts.head? = some (GPart.text finalPromptText) ∧
    textsBeforeImages parts = true := by
  unfold buildContents at h
  cases hs : stage2 st text files with
  | error e => rw [hs] at h; exact absurd h (by simp)
  | ok pr =>
      rw [hs] at h
      injection h with hp
      obtain ⟨s, ps⟩ := pr
      rcases stage2_ok_shape st text files s ps hs with hnil | hshape
      · subst hnil
        subst hp
        exact ⟨rfl, rfl⟩
      · subst hshape
        subst hp
        refine ⟨rfl, ?_⟩
        cases files with
        | nil => rfl
        | cons f fs => simp [textsBeforeImages, List.all_map, GPart.isText]

/-- C9 witness: a request with one uploaded image — the prompt text is
first, the intro text second, the image last. -/
theorem promptParts_text_first_witness :
    ([GPart.text "PROMPT", GPart.text introImagesMsg, GPart.image "img1"] : List GPart).head? =
      some (GPart.text "PROMPT") ∧
    textsBeforeImages [GPart.text "PROMPT", GPart.text introImagesMsg, GPart.image "img1"] = true :=
  promptParts_text_first "段落寫作評閱" none [⟨"page one", "img1"⟩] "PROMPT"
    [GPart.text "PROMPT", GPart.text introImagesMsg, GPart.image "img1"] rfl

/-- C10: OCR failure is signalled in-band via the `OCR_ERROR:` marker
string, a genuine transcription is returned verbatim and is discarded
whenever it happens to contain that marker anywhere, and a request all
of whose (successful) transcriptions contain the marker is rejected
with the 400 all-OCR-failed error. -/
theorem ocrError_marker_inband (m t st : String) (files : List UploadedFile)
    (hne : files ≠ [])
    (hall : ∀ f ∈ files, containsSub "OCR_ERROR:" f.ocrOut = true) :
    containsSub "OCR_ERROR:" (perform_ocr (OcrOutcome.visionFailure m)) = true ∧
    perform_ocr (OcrOutcome.detected t) = t ∧
    (containsSub "OCR_ERROR:" t = true → keepOcr t = false) ∧
    stage2 st none files = Except.error AcquireError.allOcrFailed ∧
    (acquireHttp AcquireError.allOcrFailed).1 = 400 := by
  refine ⟨?_, rfl, ?_, ?_, rfl⟩
  · show containsSub "OCR_ERROR:" ("OCR_ERROR: " ++ m) = true
    unfold containsSub
    apply isSubstrL_of_prefix
    have hsplit : ("OCR_ERROR: " ++ m).toList = "OCR_ERROR:".toList ++ (' ' :: m.toList) := by
      simp [String.toList]
    rw [hsplit]
    exact isPrefixOf_append_self _ _
  · intro hmark
    simp [keepOcr, hmark]
  · have hkept : (files.map (fun f => f.ocrOut)).filter keepOcr = [] := by
      rw [List.filter_eq_nil_iff]
      intro a ha
      rw [List.mem_map] at ha
      obtain ⟨f, hf, rfl⟩ := ha
      simp [keepOcr, hall f hf]
    cases files with
    | nil => exact absurd rfl hne
    | cons f fs =>
        show stage2Files st (f :: fs) = Except.error AcquireError.allOcrFailed
        simp only [stage2Files, ocrLoop_eq]
        rw [if_pos (show (List.filter keepOcr
          (List.map (fun f => f.ocrOut) (f :: fs))).isEmpty = true by rw [hkept]; rfl)]

/-- C10 witness: one image whose OCR succeeds but whose genuine text
contains the marker — the request is rejected with 400. -/
theorem ocrError_marker_inband_witness :
    containsSub "OCR_ERROR:" (perform_ocr (OcrOutcome.visionFailure "boom")) = true ∧
    perform_ocr (OcrOutcome.detected "my essay quotes OCR_ERROR: verbatim") =
      "my essay quotes OCR_ERROR: verbatim" ∧
    (containsSub "OCR_ERROR:" "my essay quotes OCR_ERROR: verbatim" = true →
      keepOcr "my essay quotes OCR_ERROR: verbatim" = false) ∧
    stage2 "段落寫作評閱" none [⟨"my essay quotes OCR_ERROR: verbatim", "img"⟩] =
      Except.error AcquireError.allOcrFailed ∧
    (acquireHttp AcquireError.allOcrFailed).1 = 400 :=
  ocrError_marker_inband "boom" "my essay quotes OCR_ERROR: verbatim" "段落寫作評閱"
    [⟨"my essay quotes OCR_ERROR: verbatim", "img"⟩] (List.cons_ne_nil _ _)
    (by intro f hf; rw [List.mem_singleton] at hf; subst hf; decide)

/-- C2 counterexample: a candidate with empty concatenated text and a
non-empty prose-only candidate reach the same `raise` site and produce
the same caller-visible error — the same status code and the same
detail string — so the two failures are not distinguishable by the
caller. -/
theorem emptyResponse_not_distinguishable :
    normalizeResponse "段落寫作評閱" ⟨[[]], none⟩ =
      NormResult.err (NormError.emptyOrInvalidJson "") ∧
    normalizeResponse "段落寫作評閱" ⟨[["Sorry, I cannot grade this."]], none⟩ =
      NormResult.err (NormError.emptyOrInvalidJson "Sorry, I cannot grade this.") ∧
    toHttp (NormError.emptyOrInvalidJson "") =
      toHttp (NormError.emptyOrInvalidJson "Sorry, I cannot grade this.") :=
  ⟨rfl, rfl, rfl⟩

/-- C2 amended: a response with at least one candidate whose
concatenated text is empty terminates in the single empty-or-invalid
failure of the merged gate — HTTP 500 with a fixed detail string — and
that is the same error kind the gate produces for a non-empty
prose-only response, so the two are not distinguishable by the
caller. -/
theorem emptyResponse_merged_failure (st : String) (cand : List String)
    (rest : List (List String)) (br : Option String) (prose : String)
    (h : String.join cand = "") :
    normalizeResponse st ⟨cand :: rest, br⟩ =
      NormResult.err (NormError.emptyOrInvalidJson "") ∧
    toHttp (NormError.emptyOrInvalidJson "") =
      (500, "AI 模型返回了空的或無效的 JSON 內容。 請檢查輸入內容或稍後再試。") ∧
    toHttp (NormError.emptyOrInvalidJson prose) =
      (500, "AI 模型返回了空的或無效的 JSON 內容。 請檢查輸入內容或稍後再試。") := by
  refine ⟨?_, rfl, rfl⟩
  show normalizeResponse st ⟨cand :: rest, br⟩ = _
  unfold normalizeResponse
  simp only [h]
  rfl

/-- C2 amended witness. -/
theorem emptyResponse_merged_failure_witness :
    normalizeResponse "測驗寫作評改" ⟨[[""]], none⟩ =
      NormResult.err (NormError.emptyOrInvalidJson "") ∧
    toHttp (NormError.emptyOrInvalidJson "") =
      (500, "AI 模型返回了空的或無效的 JSON 內容。 請檢查輸入內容或稍後再試。") ∧
    toHttp (NormError.emptyOrInvalidJson "no json here") =
      (500, "AI 模型返回了空的或無效的 JSON 內容。 請檢查輸入內容或稍後再試。") :=
  emptyResponse_merged_failure "測驗寫作評改" [""] [] none "no json here" rfl

/-- C4: when the candidate JSON text (after fence stripping) does not
begin, once whitespace is trimmed, with a brace or bracket, the
normalizer terminates at the pre-parse shape gate with the
empty-or-invalid failure carrying the original response text — no parse
is attempted and no parser error can surface. -/
theorem shapeGate_rejects_prose (st : String) (cand : List String)
    (rest : List (List String)) (br : Option String)
    (h : startsWithBrace (pyStrip (cleanedOf (String.join cand))) = false) :
    normalizeResponse st ⟨cand :: rest, br⟩ =
      NormResult.err (NormError.emptyOrInvalidJson (String.join cand)) := by
  unfold normalizeResponse
  simp [h]

/-- C4 witness: a prose-only answer is rejected at the shape gate. -/
theorem shapeGate_rejects_prose_witness :
    normalizeResponse "段落寫作評閱"
      ⟨[["I am sorry, but I cannot grade this submission."]], none⟩ =
      NormResult.err
        (NormError.emptyOrInvalidJson "I am sorry, but I cannot grade this submission.") := by
  have h := shapeGate_rejects_prose "段落寫作評閱"
    ["I am sorry, but I cannot grade this submission."] [] none (by decide)
  exact h.trans rfl

/-- C5: when the candidate JSON text passes the shape gate but strict
decoding fails, the normalizer terminates in the malformed-JSON failure
carrying both the parser message and the offending cleaned text, and
the caller receives the 500 JSON-format error — never a silent partial
parse or a successful result. -/
theorem malformedJson_failure (st : String) (cand : List String)
    (rest : List (List String)) (br : Option String) (msg : String)
    (hne : cleanedOf (String.join cand) ≠ "")
    (hshape : startsWithBrace (pyStrip (cleanedOf (String.join cand))) = true)
    (hparse : jsonLoads (cleanedOf (String.join cand)) = Except.error msg) :
    normalizeResponse st ⟨cand :: rest, br⟩ =
      NormResult.err (NormError.malformedJson msg (cleanedOf (String.join cand))) ∧
    toHttp (NormError.malformedJson msg (cleanedOf (String.join cand))) =
      (500, "AI 模型返回的 JSON 格式錯誤: " ++ msg) := by
  refine ⟨?_, rfl⟩
  unfold normalizeResponse
  simp [hne, hshape, hparse]

/-- C5 witness: a trailing comma is a strict-decode error, reported as
the malformed-JSON failure carrying the offending text. -/
theorem malformedJson_failure_witness :
    normalizeResponse "學習單批改" ⟨[["\x7b\"title\": \"T\",\x7d"]], none⟩ =
      NormResult.err (NormError.malformedJson
        "Expecting property name enclosed in double quotes" "\x7b\"title\": \"T\",\x7d") ∧
    toHttp (NormError.malformedJson
        "Expecting property name enclosed in double quotes" "\x7b\"title\": \"T\",\x7d") =
      (500, "AI 模型返回的 JSON 格式錯誤: " ++
        "Expecting property name enclosed in double quotes") := by
  have h := malformedJson_failure "學習單批改" ["\x7b\"title\": \"T\",\x7d"] [] none
    "Expecting property name enclosed in double quotes" (by decide) (by decide) rfl
  exact ⟨h.1.trans rfl, rfl⟩

/-- The `answer_map` literal of the learning-sheet branch
(lines 711–718). -/
def answerMapLearningSheet : List (String × String) :=
  [("七年級全英提問學習單參考答案", "全英提問學習單參考答案(01_1下).txt"),
   ("八年級全英提問學習單參考答案", "全英提問學習單參考答案(01_2下).txt"),
   ("九年級全英提問學習單參考答案", "全英提問學習單參考答案(01_3下).txt"),
   ("七年級差異化學習單參考答案", "差異化學習單參考答案(01_1下).txt"),
   ("八年級差異化學習單參考答案", "差異化學習單參考答案(01_2下).txt"),
   ("九年級差異化學習單參考答案", "差異化學習單參考答案(01_3下).txt")]

/-- The `answer_map` literal of the reading/writing branch
(lines 734–738). -/
def answerMapReadingWriting : List (String × String) :=
  [("七年級讀寫習作參考答案", "113_1習作標準答案.txt"),
   ("八年級讀寫習作參考答案", "113_2習作標準答案.txt"),
   ("九年級讀寫習作參考答案", "113_3習作標準答案.txt")]

/-- C8: every miss mode of the Reference Answer Resolver — an unmapped
(gradeLevel, category) composite key, a missing stored document, a
storage error, a malformed (non-JSON) document, and the absence of the
lookup key in the decoded document — degrades to `None` without
raising, and the downstream `standard_answers_json_str` stays empty so
the prompt proceeds with an empty reference-answer section. -/
theorem referenceAnswer_degrades (storage : String → BlobOutcome)
    (basePath gradeLevel categoryKey lookupKey : String)
    (answerMap : List (String × String)) :
    (answerMap.find? (fun p => p.1 == gradeLevel ++ categoryKey) = none →
      get_standard_answer_from_gcs storage basePath gradeLevel categoryKey answerMap lookupKey =
        Except.ok none) ∧
    (∀ p, answerMap.find? (fun p => p.1 == gradeLevel ++ categoryKey) = some p →
      (storage (basePath ++ p.2) = BlobOutcome.missing →
        get_standard_answer_from_gcs storage basePath gradeLevel categoryKey answerMap lookupKey =
          Except.ok none) ∧
      (∀ m, storage (basePath ++ p.2) = BlobOutcome.storageFailure m →
        get_standard_answer_from_gcs storage basePath gradeLevel categoryKey answerMap lookupKey =
          Except.ok none) ∧
      (∀ doc e, storage (basePath ++ p.2) = BlobOutcome.content doc →
        jsonLoads doc = Except.error e →
        get_standard_answer_from_gcs storage basePath gradeLevel categoryKey answerMap lookupKey =
          Except.ok none) ∧
      (∀ doc kvs, storage (basePath ++ p.2) = BlobOutcome.content doc →
        jsonLoads doc = Except.ok (Json.obj kvs) →
        getField kvs lookupKey = none →
        get_standard_answer_from_gcs storage basePath gradeLevel categoryKey answerMap lookupKey =
          Except.ok none)) ∧
    standardAnswersStr none = "" := by
  refine ⟨?_, ?_, rfl⟩
  · intro hmap
    simp only [get_standard_answer_from_gcs, hmap]
  · intro p hmap
    refine ⟨?_, ?_, ?_, ?_⟩
    · intro hmiss
      simp only [get_standard_answer_from_gcs, hmap, hmiss, get_gcs_blob_text]
    · intro m hfail
      simp only [get_standard_answer_from_gcs, hmap, hfail, get_gcs_blob_text]
    · intro doc e hdoc hbad
      simp only [get_standard_answer_from_gcs, hmap, hdoc, get_gcs_blob_text]
      by_cases hd : doc = ""
      · rw [if_pos hd]
      · rw [if_neg hd, hbad]
    · intro doc kvs hdoc hok hkey
      simp only [get_standard_answer_from_gcs, hmap, hdoc, get_gcs_blob_text]
      by_cases hd : doc = ""
      · rw [if_pos hd]
      · rw [if_neg hd, hok]
        simp only [hkey]

/-- C8 witness: a tenth-grade key is unmapped in the learning-sheet
answer map; the resolver returns `None` and the reference-answer
section stays empty. -/
theorem referenceAnswer_degrades_witness :
    get_standard_answer_from_gcs (fun _ => BlobOutcome.missing) "ai_english_file/"
      "十年級" "全英提問學習單參考答案" answerMapLearningSheet "Lesson 1" =
      Except.ok none ∧
    standardAnswersStr none = "" := by
  have h := referenceAnswer_degrades (fun _ => BlobOutcome.missing) "ai_english_file/"
    "十年級" "全英提問學習單參考答案" "Lesson 1" answerMapLearningSheet
  exact ⟨h.1 (by decide), h.2.2⟩


/-! ## Templating lemmas and C6 -/

theorem fmtScan_cons_lit (m : List (String × String)) (c : Char) (rest : List Char)
    (hc1 : ¬c = '\x7b') (hc2 : ¬c = '\x7d') :
    fmtScan m (c :: rest) none = (fmtScan m rest none).map (fun t => c :: t) := by
  rw [fmtScan]
  all_goals (intros; simp_all)

theorem fmtScan_cons_field (m : List (String × String)) (c : Char) (rest acc : List Char)
    (hc : ¬c = '\x7d') :
    fmtScan m (c :: rest) (some acc) = fmtScan m rest (some (c :: acc)) := by
  rw [fmtScan]
  all_goals (intros; simp_all)

theorem fmtScan_close (m : List (String × String)) (rest acc : List Char) :
    fmtScan m ('\x7d' :: rest) (some acc) =
      (match m.find? (fun p => p.1 == String.mk (fieldName acc.reverse)) with
       | some p => (fmtScan m rest none).map (fun t => p.2.toList ++ t)
       | none => Except.error (FormatError.keyError (String.mk (fieldName acc.reverse)))) := by
  rw [fmtScan]

theorem fmtScan_open (m : List (String × String)) (c : Char) (rest : List Char)
    (hc : ¬c = '\x7b') :
    fmtScan m ('\x7b' :: c :: rest) none = fmtScan m (c :: rest) (some []) := by
  rw [fmtScan]
  all_goals (intros; simp_all)

theorem takeWhile_all_eq (p : Char → Bool) (l : List Char) (h : l.all p = true) :
    l.takeWhile p = l := by
  induction l with
  | nil => rfl
  | cons c cs ih =>
      simp only [List.all_cons, Bool.and_eq_true] at h
      simp [List.takeWhile_cons, h.1, ih h.2]

theorem fmtScan_literal (m : List (String × String)) (l tail : List Char)
    (hl : l.all (fun c => c != '\x7b' && c != '\x7d') = true) :
    fmtScan m (l ++ tail) none = (fmtScan m tail none).map (fun t => l ++ t) := by
  induction l with
  | nil =>
      cases h : fmtScan m tail none <;> simp [Except.map, h]
  | cons c cs ih =>
      simp only [List.all_cons, Bool.and_eq_true, bne_iff_ne, ne_eq] at hl
      obtain ⟨⟨hc1, hc2⟩, hcs⟩ := hl
      rw [List.cons_append, fmtScan_cons_lit m c _ hc1 hc2, ih (by simpa using hcs)]
      cases fmtScan m tail none <;> simp [Except.map]

theorem fmtScan_fieldBody (m : List (String × String)) (k acc tail : List Char)
    (hk : k.all (fun c => c != '\x7d') = true) :
    fmtScan m (k ++ '\x7d' :: tail) (some acc) =
      fmtScan m ('\x7d' :: tail) (some (k.reverse ++ acc)) := by
  induction k generalizing acc with
  | nil => simp
  | cons c cs ih =>
      simp only [List.all_cons, Bool.and_eq_true, bne_iff_ne, ne_eq] at hk
      rw [List.cons_append, fmtScan_cons_field m c _ acc hk.1, ih (c :: acc) hk.2]
      simp

theorem fmtScan_template (m : List (String × String)) (pre post : List Char) (k : String)
    (hpre : pre.all (fun c => c != '\x7b' && c != '\x7d') = true)
    (hpost : post.all (fun c => c != '\x7b' && c != '\x7d') = true)
    (hkne : k.toList ≠ [])
    (hk : k.toList.all (fun c => c != '\x7b' && c != '\x7d' && c != ':' && c != '!') = true) :
    fmtScan m (pre ++ '\x7b' :: (k.toList ++ '\x7d' :: post)) none =
      (match m.find? (fun p => p.1 == k) with
       | some p => Except.ok (pre ++ (p.2.toList ++ post))
       | none => Except.error (FormatError.keyError k)) := by
  rw [fmtScan_literal m pre _ hpre]
  have hfield : fmtScan m ('\x7b' :: (k.toList ++ '\x7d' :: post)) none =
      fmtScan m (k.toList ++ '\x7d' :: post) (some []) := by
    cases hkl : k.toList with
    | nil => exact absurd hkl hkne
    | cons c cs =>
        have hc1 : ¬c = '\x7b' := by
          rw [hkl] at hk
          simp only [List.all_cons, Bool.and_eq_true, bne_iff_ne, ne_eq] at hk
          exact hk.1.1.1.1
        rw [List.cons_append, fmtScan_open m c _ hc1]
  rw [hfield]
  rw [fmtScan_fieldBody m k.toList [] post (by
    rw [List.all_eq_true] at hk ⊢
    intro c hc
    have h2 := hk c hc
    simp only [Bool.and_eq_true] at h2
    exact h2.1.1.2)]
  rw [fmtScan_close]
  have hname : fieldName (k.toList.reverse ++ []).reverse = k.toList := by
    rw [List.append_nil, List.reverse_reverse]
    refine takeWhile_all_eq _ _ ?_
    rw [List.all_eq_true] at hk ⊢
    intro c hc
    have h2 := hk c hc
    simp only [Bool.and_eq_true] at h2
    simp [h2.1.2, h2.2]
  rw [hname]
  have hmk : String.mk k.toList = k := rfl
  rw [hmk]
  cases hfind : m.find? (fun p => p.1 == k) with
  | none => rfl
  | some p =>
      have hp : fmtScan m post none = Except.ok post := by
        have h2 := fmtScan_literal m post [] hpost
        rw [List.append_nil] at h2
        rw [h2]
        simp [fmtScan, Except.map]
      simp [hp, Except.map]

/-- C6 counterexample: a template placeholder that is not one of the
nine named substitution fields does not surface as-is in the output —
`str.format` aborts resolution with a `KeyError`. -/
theorem templatePlaceholder_counterexample :
    pyFormat "\x7bunknown_placeholder\x7d"
      (gradeSubstitutions "B1" "L1" "七年級" "段落寫作評閱" "essay text" "" "" "json" "") =
      Except.error (FormatError.keyError "unknown_placeholder") ∧
    pyFormat "\x7bunknown_placeholder\x7d"
      (gradeSubstitutions "B1" "L1" "七年級" "段落寫作評閱" "essay text" "" "" "json" "") ≠
      Except.ok "\x7bunknown_placeholder\x7d" := by
  have h := fmtScan_template
    (gradeSubstitutions "B1" "L1" "七年級" "段落寫作評閱" "essay text" "" "" "json" "")
    [] [] "unknown_placeholder" rfl rfl (by decide) (by decide)
  have h2 : pyFormat "\x7bunknown_placeholder\x7d"
      (gradeSubstitutions "B1" "L1" "七年級" "段落寫作評閱" "essay text" "" "" "json" "") =
      Except.error (FormatError.keyError "unknown_placeholder") := by
    unfold pyFormat
    rw [show ("\x7bunknown_placeholder\x7d" : String).toList =
      [] ++ '\x7b' :: (("unknown_placeholder" : String).toList ++ '\x7d' :: []) from rfl]
    rw [h]
    rfl
  refine ⟨h2, ?_⟩
  intro hcontra
  rw [h2] at hcontra
  exact Except.noConfusion hcontra

/-- C6 amended: template resolution is literal interpolation only for
known fields — a placeholder that is not one of the named substitution
fields aborts resolution with a `KeyError` (it does not surface as-is);
a substitution value containing brace characters does not break
templating: it is inserted as an opaque literal, never rescanned (the
value below is universally quantified through the map entry). -/
theorem templateResolution_spec (pre post k : String) (m : List (String × String))
    (hpre : pre.toList.all (fun c => c != '\x7b' && c != '\x7d') = true)
    (hpost : post.toList.all (fun c => c != '\x7b' && c != '\x7d') = true)
    (hkne : k.toList ≠ [])
    (hk : k.toList.all (fun c => c != '\x7b' && c != '\x7d' && c != ':' && c != '!') = true) :
    pyFormat (pre ++ "\x7b" ++ k ++ "\x7d" ++ post) m =
      (match m.find? (fun p => p.1 == k) with
       | some p => Except.ok (pre ++ p.2 ++ post)
       | none => Except.error (FormatError.keyError k)) := by
  have hlist : (pre ++ "\x7b" ++ k ++ "\x7d" ++ post).toList =
      pre.toList ++ '\x7b' :: (k.toList ++ '\x7d' :: post.toList) := by
    simp [String.toList, String.data_append]
  unfold pyFormat
  rw [hlist, fmtScan_template m pre.toList post.toList k hpre hpost hkne hk]
  cases hfind : m.find? (fun p => p.1 == k) with
  | none => rfl
  | some p =>
      show Except.ok (String.mk (pre.toList ++ (p.2.toList ++ post.toList))) = _
      have heq : String.mk (pre.toList ++ (p.2.toList ++ post.toList)) = pre ++ p.2 ++ post := by
        show String.mk (pre.data ++ (p.2.data ++ post.data)) = pre ++ p.2 ++ post
        cases pre with
        | mk d1 =>
            cases post with
            | mk d3 =>
                show String.mk (d1 ++ (p.2.data ++ d3)) = String.mk ((d1 ++ p.2.data) ++ d3)
                rw [List.append_assoc]
      rw [heq]

/-- C6 amended witness: the essay-content value contains braces and is
inserted literally. -/
theorem templateResolution_spec_witness :
    pyFormat "Essay: \x7bessay_content\x7d."
      (gradeSubstitutions "" "" "七年級" "段落寫作評閱"
        "text with \x7bbraces\x7d and a stray \x7d inside" "" "" "json" "") =
      Except.ok "Essay: text with \x7bbraces\x7d and a stray \x7d inside." := by
  have h := templateResolution_spec "Essay: " "." "essay_content"
    (gradeSubstitutions "" "" "七年級" "段落寫作評閱"
      "text with \x7bbraces\x7d and a stray \x7d inside" "" "" "json" "")
    (by decide) (by decide) (by decide) (by decide)
  have heq : ("Essay: " ++ "\x7b" ++ "essay_content" ++ "\x7d" ++ "." : String) =
      "Essay: \x7bessay_content\x7d." := rfl
  rw [heq] at h
  exact h.trans rfl

/-! ## Fence-stripping lemmas and C3 -/

theorem isSubstrL_sandwich (p pre post : List Char) :
    isSubstrL p (pre ++ (p ++ post)) = true := by
  induction pre with
  | nil =>
      show isSubstrL p (p ++ post) = true
      exact isSubstrL_of_prefix p (p ++ post) (isPrefixOf_append_self p post)
  | cons c cs ih =>
      show isSubstrL p (c :: (cs ++ (p ++ post))) = true
      simp [isSubstrL, ih]

theorem prefix_fence3_of_open (l : List Char) (h : List.isPrefixOf jsonFenceOpen l = true) :
    List.isPrefixOf fence3 l = true := by
  rw [List.isPrefixOf_iff_prefix] at h ⊢
  exact List.IsPrefix.trans (by decide) h

/-- A text with no triple backtick admits no fence match anywhere. -/
theorem reSearchFence_none (l : List Char) (h : isSubstrL fence3 l = false) :
    reSearchFence l = none := by
  induction l with
  | nil => rfl
  | cons c rest ih =>
      simp only [isSubstrL, Bool.or_eq_false_iff] at h
      have hm : matchFrom (c :: rest) = none := by
        unfold matchFrom
        rw [if_neg]
        intro hpre
        have := prefix_fence3_of_open _ hpre
        rw [this] at h
        exact Bool.noConfusion h.1
      rw [reSearchFence, hm, ih h.2]

/-- Inside a brace-delimited body with no triple backtick, no inner
closing brace is followed by a closing fence. -/
theorem fenceFollows_false_inside (inner m1 m2 : List Char)
    (hm : inner = m1 ++ '\x7d' :: m2)
    (hnf : isSubstrL fence3 ('\x7b' :: (inner ++ ['\x7d'])) = false) :
    fenceFollows (m2 ++ '\x7d' :: '\n' :: fence3) = false := by
  unfold fenceFollows
  rw [List.dropWhile_append]
  by_cases hemp : (m2.dropWhile isSpace).isEmpty
  · rw [if_pos hemp]
    decide
  · rw [if_neg hemp]
    cases hd : m2.dropWhile isSpace with
    | nil => rw [hd] at hemp; exact absurd rfl hemp
    | cons c d =>
        cases d with
        | nil => simp [List.isPrefixOf, fence3]
        | cons d1 d2 =>
            cases d2 with
            | nil => simp [List.isPrefixOf, fence3]
            | cons d3 d4 =>
                by_cases hb : c = '`' ∧ d1 = '`' ∧ d3 = '`'
                · exfalso
                  obtain ⟨hb1, hb2, hb3⟩ := hb
                  subst hb1; subst hb2; subst hb3
                  obtain ⟨sp, hm2⟩ : ∃ sp, m2 = sp ++ '`' :: '`' :: '`' :: d4 := by
                    refine ⟨m2.takeWhile isSpace, ?_⟩
                    conv_lhs => rw [← List.takeWhile_append_dropWhile (p := isSpace) (l := m2)]
                    rw [hd]
                  have hsplit : ('\x7b' :: (inner ++ ['\x7d'])) =
                      ('\x7b' :: m1 ++ '\x7d' :: sp) ++ (fence3 ++ (d4 ++ ['\x7d'])) := by
                    rw [hm, hm2]
                    simp [fence3]
                  rw [hsplit, isSubstrL_sandwich] at hnf
                  exact Bool.noConfusion hnf
                · simp only [List.isPrefixOf, fence3]
                  by_cases h1 : c = '`'
                  · by_cases h2 : d1 = '`'
                    · by_cases h3 : d3 = '`'
                      · exact absurd ⟨h1, h2, h3⟩ hb
                      · simp [h1, h2]
                        exact fun hh => h3 hh.symm
                    · simp [h1]
                      intro hh
                      exact absurd hh.symm h2
                  · simp
                    intro hh
                    exact absurd hh.symm h1

/-- The lazy scan runs to the final closing brace when no earlier
closing brace is followed by a fence. -/
theorem lazyBody_runs (mid tail : List Char) (acc : List Char)
    (htail : fenceFollows tail = true)
    (hmid : ∀ m1 m2, mid = m1 ++ '\x7d' :: m2 → fenceFollows (m2 ++ '\x7d' :: tail) = false) :
    lazyBody acc (mid ++ '\x7d' :: tail) = some (acc.reverse ++ (mid ++ ['\x7d'])) := by
  induction mid generalizing acc with
  | nil =>
      show lazyBody acc ('\x7d' :: tail) = _
      rw [lazyBody, if_pos (by simp [htail])]
      simp
  | cons c cs ih =>
      rw [List.cons_append, lazyBody]
      have hcond : (c = '\x7d' && fenceFollows (cs ++ '\x7d' :: tail)) = false := by
        by_cases hc : c = '\x7d'
        · subst hc
          rw [hmid [] cs rfl]
          simp
        · simp [hc]
      rw [if_neg (by rw [hcond]; exact Bool.noConfusion)]
      rw [ih (c :: acc) (fun m1 m2 hsplit => hmid (c :: m1) m2 (by rw [hsplit]; rfl))]
      simp

theorem reSearchFence_cons_of_match (c : Char) (r g : List Char)
    (h : matchFrom (c :: r) = some g) : reSearchFence (c :: r) = some g := by
  rw [reSearchFence, h]

theorem matchFrom_fenced (inner : List Char)
    (hnf : isSubstrL fence3 ('\x7b' :: (inner ++ ['\x7d'])) = false) :
    matchFrom (jsonFenceOpen ++ '\n' :: (('\x7b' :: (inner ++ ['\x7d'])) ++ '\n' :: fence3)) =
      some ('\x7b' :: (inner ++ ['\x7d'])) := by
  unfold matchFrom
  rw [if_pos (isPrefixOf_append_self _ _)]
  have hdrop : (jsonFenceOpen ++ '\n' :: (('\x7b' :: (inner ++ ['\x7d'])) ++ '\n' :: fence3)).drop 7 =
      '\n' :: (('\x7b' :: (inner ++ ['\x7d'])) ++ '\n' :: fence3) := by
    rw [show (7 : Nat) = jsonFenceOpen.length from rfl]
    exact List.drop_left _ _
  rw [hdrop]
  have hdw : (('\n' :: (('\x7b' :: (inner ++ ['\x7d'])) ++ '\n' :: fence3)) : List Char).dropWhile isSpace =
      '\x7b' :: ((inner ++ ['\x7d']) ++ '\n' :: fence3) := by
    rw [List.dropWhile_cons, if_pos (by decide), List.cons_append,
        List.dropWhile_cons, if_neg (by decide)]
  rw [hdw]
  show (lazyBody [] ((inner ++ ['\x7d']) ++ '\n' :: fence3)).map (fun g => '\x7b' :: g) = _
  have hassoc : (inner ++ ['\x7d']) ++ '\n' :: fence3 = inner ++ '\x7d' :: ('\n' :: fence3) := by
    simp
  rw [hassoc]
  rw [lazyBody_runs inner ('\n' :: fence3) [] (by decide)
      (fun m1 m2 hsplit => fenceFollows_false_inside inner m1 m2 hsplit hnf)]
  simp

theorem pyStrip_body (inner : List Char) :
    pyStrip (String.mk ('\x7b' :: (inner ++ ['\x7d']))) =
      String.mk ('\x7b' :: (inner ++ ['\x7d'])) := by
  unfold pyStrip pyStripL
  have h1 : ('\x7b' :: (inner ++ ['\x7d'])).dropWhile isSpace =
      '\x7b' :: (inner ++ ['\x7d']) := by
    rw [List.dropWhile_cons, if_neg (by decide)]
  have h2 : ('\x7b' :: (inner ++ ['\x7d'])).reverse =
      '\x7d' :: (inner.reverse ++ ['\x7b']) := by
    simp
  rw [show (String.mk ('\x7b' :: (inner ++ ['\x7d']))).toList =
      '\x7b' :: (inner ++ ['\x7d']) from rfl]
  rw [h1, h2, List.dropWhile_cons, if_neg (by decide), ← h2]
  simp

theorem cleanedOf_unfenced (inner : List Char)
    (hnf : isSubstrL fence3 ('\x7b' :: (inner ++ ['\x7d'])) = false) :
    cleanedOf (String.mk ('\x7b' :: (inner ++ ['\x7d']))) =
      String.mk ('\x7b' :: (inner ++ ['\x7d'])) := by
  unfold cleanedOf
  rw [show (String.mk ('\x7b' :: (inner ++ ['\x7d']))).toList =
      '\x7b' :: (inner ++ ['\x7d']) from rfl]
  rw [reSearchFence_none _ hnf]
  exact pyStrip_body inner

theorem cleanedOf_fenced (inner : List Char)
    (hnf : isSubstrL fence3 ('\x7b' :: (inner ++ ['\x7d'])) = false) :
    cleanedOf (String.mk (jsonFenceOpen ++ '\n' :: (('\x7b' :: (inner ++ ['\x7d'])) ++ '\n' :: fence3))) =
      String.mk ('\x7b' :: (inner ++ ['\x7d'])) := by
  unfold cleanedOf
  rw [show (String.mk (jsonFenceOpen ++ '\n' :: (('\x7b' :: (inner ++ ['\x7d'])) ++ '\n' :: fence3))).toList =
      jsonFenceOpen ++ '\n' :: (('\x7b' :: (inner ++ ['\x7d'])) ++ '\n' :: fence3) from rfl]
  have hcons : jsonFenceOpen ++ '\n' :: (('\x7b' :: (inner ++ ['\x7d'])) ++ '\n' :: fence3) =
      '`' :: (['`', '`', 'j', 's', 'o', 'n'] ++ '\n' :: (('\x7b' :: (inner ++ ['\x7d'])) ++ '\n' :: fence3)) := rfl
  rw [hcons, reSearchFence_cons_of_match _ _ _ (by rw [← hcons]; exact matchFrom_fenced inner hnf)]

theorem join_singleton (s : String) : String.join [s] = s := rfl

theorem normalizeResponse_single (st rt : String) (br : Option String) :
    normalizeResponse st ⟨[[rt]], br⟩ =
      (if cleanedOf rt = "" || !startsWithBrace (pyStrip (cleanedOf rt)) then
        NormResult.err (NormError.emptyOrInvalidJson rt)
      else
        match jsonLoads (cleanedOf rt) with
        | Except.error e => NormResult.err (NormError.malformedJson e (cleanedOf rt))
        | Except.ok v => dispatchValidate st v) := rfl

/-- C3 amended: for every pair of responses carrying the same
brace-delimited JSON body, one wrapped in a ```` ```json ```` fence and
one unfenced, PROVIDED the body itself contains no triple backtick, the
normalizer produces the same result for every category.  (The proviso
is forced: a body whose string content contains fence-like text makes
the two sides diverge — see the counterexample.) -/
theorem fencedUnfenced_equiv (st : String) (inner : List Char) (br br2 : Option String)
    (hnf : isSubstrL fence3 ('\x7b' :: (inner ++ ['\x7d'])) = false) :
    normalizeResponse st
      ⟨[[String.mk (jsonFenceOpen ++ '\n' :: (('\x7b' :: (inner ++ ['\x7d'])) ++ '\n' :: fence3))]], br⟩ =
    normalizeResponse st ⟨[[String.mk ('\x7b' :: (inner ++ ['\x7d']))]], br2⟩ := by
  rw [normalizeResponse_single, normalizeResponse_single,
      cleanedOf_fenced inner hnf, cleanedOf_unfenced inner hnf]
  have hne : ¬(String.mk ('\x7b' :: (inner ++ ['\x7d'])) = "") := by
    intro h
    have : ('\x7b' :: (inner ++ ['\x7d'])) = ([] : List Char) := congrArg String.toList h
    exact List.noConfusion this
  have hsw : startsWithBrace (pyStrip (String.mk ('\x7b' :: (inner ++ ['\x7d'])))) = true := by
    rw [pyStrip_body]
    rfl
  rw [if_neg (by simp [hne, hsw]), if_neg (by simp [hne, hsw])]

/-- C3 counterexample: a JSON body whose string value contains
fence-like text.  Unfenced, the regex finds the inner pseudo-fence and
the normalizer validates `\x7b\x7d` (a schema violation); fenced, the
lazy group stops at the inner closing brace and the normalizer reports
malformed JSON — the same JSON body yields different results. -/
theorem fencedUnfenced_counterexample :
    normalizeResponse "段落寫作評閱"
      ⟨[["```json\n\x7b\"a\": \"```json \x7b\x7d ```\"\x7d\n```"]], none⟩ =
      NormResult.err (NormError.malformedJson "Unterminated string" "\x7b\"a\": \"```json \x7b\x7d") ∧
    normalizeResponse "段落寫作評閱"
      ⟨[["\x7b\"a\": \"```json \x7b\x7d ```\"\x7d"]], none⟩ =
      NormResult.err (NormError.schemaViolation "submissionType: Field required") ∧
    normalizeResponse "段落寫作評閱"
      ⟨[["```json\n\x7b\"a\": \"```json \x7b\x7d ```\"\x7d\n```"]], none⟩ ≠
    normalizeResponse "段落寫作評閱"
      ⟨[["\x7b\"a\": \"```json \x7b\x7d ```\"\x7d"]], none⟩ := by
  have h1 : normalizeResponse "段落寫作評閱"
      ⟨[["```json\n\x7b\"a\": \"```json \x7b\x7d ```\"\x7d\n```"]], none⟩ =
      NormResult.err (NormError.malformedJson "Unterminated string" "\x7b\"a\": \"```json \x7b\x7d") := rfl
  have h2 : normalizeResponse "段落寫作評閱"
      ⟨[["\x7b\"a\": \"```json \x7b\x7d ```\"\x7d"]], none⟩ =
      NormResult.err (NormError.schemaViolation "submissionType: Field required") := rfl
  refine ⟨h1, h2, ?_⟩
  intro h
  rw [h1, h2] at h
  simp at h

/-- C3 amended witness: the body `\x7b"a": 1\x7d`, fenced and
unfenced, normalizes identically. -/
theorem fencedUnfenced_equiv_witness :
    normalizeResponse "段落寫作評閱"
      ⟨[[String.mk (jsonFenceOpen ++ '\n' :: (('\x7b' :: ("\"a\": 1".toList ++ ['\x7d'])) ++ '\n' :: fence3))]], none⟩ =
    normalizeResponse "段落寫作評閱"
      ⟨[[String.mk ('\x7b' :: ("\"a\": 1".toList ++ ['\x7d']))]], some "reasonless"⟩ :=
  fencedUnfenced_equiv "段落寫作評閱" "\"a\": 1".toList none (some "reasonless") (by decide)

/-! ## Schema-validation lemmas and C1 -/

theorem getField_of_mem_nodup (kvs : List (String × Json)) (k : String) (j : Json)
    (hnd : nodupKeys kvs = true) (hmem : (k, j) ∈ kvs) : getField kvs k = some j := by
  induction kvs with
  | nil => cases hmem
  | cons p rest ih =>
      simp only [nodupKeys, Bool.and_eq_true, Bool.not_eq_true'] at hnd
      rcases List.mem_cons.mp hmem with heq | hmem2
      · subst heq
        simp [getField]
      · have hne : ¬p.1 == k := by
          intro hbeq
          have hk : p.1 = k := by simpa using hbeq
          have : rest.any (fun q => q.1 == p.1) = true := by
            refine List.any_eq_true.mpr ⟨(k, j), hmem2, ?_⟩
            simp [hk]
          rw [this] at hnd
          exact Bool.noConfusion hnd.1
        have := ih hnd.2 hmem2
        simp only [getField, List.find?] at this ⊢
        rw [show (p.1 == k) = false from by simpa using hne]
        exact this

theorem jsonSubKvs_of_forall (kvs target : List (String × Json))
    (h : ∀ k j, (k, j) ∈ kvs → ∃ j2, getField target k = some j2 ∧ jsonSub j j2 = true) :
    jsonSubKvs kvs target = true := by
  induction kvs with
  | nil => rfl
  | cons p rest ih =>
      obtain ⟨j2, hget, hsub⟩ := h p.1 p.2 (by simp)
      rw [jsonSubKvs, hget]
      simp [hsub, ih (fun k j hm => h k j (List.mem_cons_of_mem p hm))]

theorem fieldIs_elim (p : Json → Bool) (kvs : List (String × Json)) (k : String)
    (h : fieldIs p kvs k = true) : ∃ j, getField kvs k = some j ∧ p j = true := by
  unfold fieldIs at h
  cases hg : getField kvs k with
  | none => rw [hg] at h; exact Bool.noConfusion h
  | some j => rw [hg] at h; exact ⟨j, rfl, h⟩

theorem listMapE_sub (f : Json → Except String α) (g : α → Json) (p : Json → Bool)
    (hf : ∀ j, p j = true → ∃ a, f j = Except.ok a ∧ jsonSub j (g a) = true) :
    ∀ xs, xs.all p = true →
      ∃ as, listMapE f xs = Except.ok as ∧ jsonSubList xs (as.map g) = true := by
  intro xs
  induction xs with
  | nil => exact fun _ => ⟨[], rfl, rfl⟩
  | cons x rest ih =>
      intro hall
      simp only [List.all_cons, Bool.and_eq_true] at hall
      obtain ⟨a, hfa, hsa⟩ := hf x hall.1
      obtain ⟨as, has, hsas⟩ := ih hall.2
      refine ⟨a :: as, ?_, ?_⟩
      · simp only [listMapE, hfa, has]
        rfl
      · simp [jsonSubList, hsa, hsas]

theorem reqStr_sub (kvs : List (String × Json)) (k : String)
    (h : fieldIs isStr kvs k = true) :
    ∃ s, reqStr kvs k = Except.ok s ∧
      ∀ jv, getField kvs k = some jv → jsonSub jv (Json.str s) = true := by
  obtain ⟨j, hget, hp⟩ := fieldIs_elim isStr kvs k h
  cases j with
  | str s =>
      refine ⟨s, by simp [reqStr, hget], ?_⟩
      intro jv hjv
      rw [Option.some.inj (hjv.symm.trans hget)]
      simp [jsonSub]
  | null => exact Bool.noConfusion hp
  | bool b => exact Bool.noConfusion hp
  | int n => exact Bool.noConfusion hp
  | float l => exact Bool.noConfusion hp
  | arr xs => exact Bool.noConfusion hp
  | obj o => exact Bool.noConfusion hp

theorem reqInt_sub (kvs : List (String × Json)) (k : String)
    (h : fieldIs isInt kvs k = true) :
    ∃ n, reqInt kvs k = Except.ok n ∧
      ∀ jv, getField kvs k = some jv → jsonSub jv (Json.int n) = true := by
  obtain ⟨j, hget, hp⟩ := fieldIs_elim isInt kvs k h
  cases j with
  | int n =>
      refine ⟨n, by simp [reqInt, hget], ?_⟩
      intro jv hjv
      rw [Option.some.inj (hjv.symm.trans hget)]
      simp [jsonSub]
  | null => exact Bool.noConfusion hp
  | bool b => exact Bool.noConfusion hp
  | str s => exact Bool.noConfusion hp
  | float l => exact Bool.noConfusion hp
  | arr xs => exact Bool.noConfusion hp
  | obj o => exact Bool.noConfusion hp

theorem reqScore_sub (kvs : List (String × Json)) (k : String)
    (h : fieldIs isScore kvs k = true) :
    ∃ sv, reqScore kvs k = Except.ok sv ∧
      ∀ jv, getField kvs k = some jv → jsonSub jv (scoreValJson sv) = true := by
  obtain ⟨j, hget, hp⟩ := fieldIs_elim isScore kvs k h
  cases j with
  | str s =>
      refine ⟨ScoreVal.s s, by simp [reqScore, hget], ?_⟩
      intro jv hjv
      rw [Option.some.inj (hjv.symm.trans hget)]
      simp [scoreValJson, jsonSub]
  | int n =>
      refine ⟨ScoreVal.i n, by simp [reqScore, hget], ?_⟩
      intro jv hjv
      rw [Option.some.inj (hjv.symm.trans hget)]
      simp [scoreValJson, jsonSub]
  | float l =>
      refine ⟨ScoreVal.f l, by simp [reqScore, hget], ?_⟩
      intro jv hjv
      rw [Option.some.inj (hjv.symm.trans hget)]
      simp [scoreValJson, jsonSub]
  | null => exact Bool.noConfusion hp
  | bool b => exact Bool.noConfusion hp
  | arr xs => exact Bool.noConfusion hp
  | obj o => exact Bool.noConfusion hp

theorem optStr_sub (kvs : List (String × Json)) (k : String)
    (h : fieldOptStr kvs k = true) :
    ∃ o, optStr kvs k = Except.ok o ∧
      ∀ jv, getField kvs k = some jv → jsonSub jv (optStrJson o) = true := by
  unfold fieldOptStr at h
  cases hg : getField kvs k with
  | none =>
      refine ⟨none, by simp [optStr, hg], ?_⟩
      intro jv hjv
      cases hjv
  | some j =>
      rw [hg] at h
      cases j with
      | str s =>
          refine ⟨some s, by simp [optStr, hg], ?_⟩
          intro jv hjv
          rw [← Option.some.inj hjv]
          simp [optStrJson, jsonSub]
      | null =>
          refine ⟨none, by simp [optStr, hg], ?_⟩
          intro jv hjv
          rw [← Option.some.inj hjv]
          simp [optStrJson, jsonSub]
      | bool b => exact Bool.noConfusion h
      | int n => exact Bool.noConfusion h
      | float l => exact Bool.noConfusion h
      | arr xs => exact Bool.noConfusion h
      | obj o => exact Bool.noConfusion h

theorem reqList_sub (f : Json → Except String α) (g : α → Json) (p : Json → Bool)
    (hf : ∀ j, p j = true → ∃ a, f j = Except.ok a ∧ jsonSub j (g a) = true)
    (kvs : List (String × Json)) (k : String)
    (h : fieldIs (isListOf p) kvs k = true) :
    ∃ as, reqList f kvs k = Except.ok as ∧
      ∀ jv, getField kvs k = some jv → jsonSub jv (Json.arr (as.map g)) = true := by
  obtain ⟨j, hget, hp⟩ := fieldIs_elim (isListOf p) kvs k h
  cases j with
  | arr xs =>
      obtain ⟨as, has, hsub⟩ := listMapE_sub f g p hf xs hp
      refine ⟨as, by simp [reqList, hget, has], ?_⟩
      intro jv hjv
      rw [Option.some.inj (hjv.symm.trans hget)]
      simp [jsonSub, hsub]
  | null => exact Bool.noConfusion hp
  | bool b => exact Bool.noConfusion hp
  | int n => exact Bool.noConfusion hp
  | float l => exact Bool.noConfusion hp
  | str s => exact Bool.noConfusion hp
  | obj o => exact Bool.noConfusion hp

theorem reqObj_sub (f : Json → Except String α) (g : α → Json) (p : Json → Bool)
    (hf : ∀ j, p j = true → ∃ a, f j = Except.ok a ∧ jsonSub j (g a) = true)
    (kvs : List (String × Json)) (k : String)
    (h : fieldIs p kvs k = true) :
    ∃ a, reqObj f kvs k = Except.ok a ∧
      ∀ jv, getField kvs k = some jv → jsonSub jv (g a) = true := by
  obtain ⟨j, hget, hp⟩ := fieldIs_elim p kvs k h
  obtain ⟨a, hfa, hsa⟩ := hf j hp
  refine ⟨a, by simp [reqObj, hget, hfa], ?_⟩
  intro jv hjv
  rw [Option.some.inj (hjv.symm.trans hget)]
  exact hsa
theorem validateErrorAnalysisItem_sub (j : Json) (h : matchesErrorAnalysisItem j = true) :
    ∃ r, validateErrorAnalysisItem j = Except.ok r ∧ jsonSub j (errorAnalysisItemJson r) = true := by
  cases j with
  | obj kvs =>
      simp only [matchesErrorAnalysisItem, Bool.and_eq_true] at h
      obtain ⟨⟨⟨⟨⟨hnd, hsub⟩, h1⟩, h2⟩, h3⟩, h4⟩ := h
      obtain ⟨a1, hv1, hs1⟩ := reqStr_sub kvs "original_sentence" h1
      obtain ⟨a2, hv2, hs2⟩ := reqStr_sub kvs "error_type" h2
      obtain ⟨a3, hv3, hs3⟩ := reqStr_sub kvs "error_content" h3
      obtain ⟨a4, hv4, hs4⟩ := reqStr_sub kvs "suggestion" h4
      refine ⟨⟨a1, a2, a3, a4⟩, ?_, ?_⟩
      · simp only [validateErrorAnalysisItem, hv1, hv2, hv3, hv4]
        rfl
      · apply jsonSubKvs_of_forall
        intro k jv hmem
        have hget := getField_of_mem_nodup kvs k jv hnd hmem
        have hk : k ∈ ["original_sentence", "error_type", "error_content", "suggestion"] := by
          have := List.all_eq_true.mp hsub (k, jv) hmem
          simpa using this
        simp only [List.mem_cons, List.not_mem_nil, or_false] at hk
        rcases hk with rfl | rfl | rfl | rfl
        · exact ⟨_, rfl, hs1 jv hget⟩
        · exact ⟨_, rfl, hs2 jv hget⟩
        · exact ⟨_, rfl, hs3 jv hget⟩
        · exact ⟨_, rfl, hs4 jv hget⟩
  | null => exact Bool.noConfusion h
  | bool b => exact Bool.noConfusion h
  | int n => exact Bool.noConfusion h
  | float l => exact Bool.noConfusion h
  | str s => exact Bool.noConfusion h
  | arr xs => exact Bool.noConfusion h

theorem validateRubricItem_sub (j : Json) (h : matchesRubricItem j = true) :
    ∃ r, validateRubricItem j = Except.ok r ∧ jsonSub j (rubricItemJson r) = true := by
  cases j with
  | obj kvs =>
      simp only [matchesRubricItem, Bool.and_eq_true] at h
      obtain ⟨⟨⟨⟨hnd, hsub⟩, h1⟩, h2⟩, h3⟩ := h
      obtain ⟨a1, hv1, hs1⟩ := reqStr_sub kvs "item" h1
      obtain ⟨a2, hv2, hs2⟩ := reqInt_sub kvs "score" h2
      obtain ⟨a3, hv3, hs3⟩ := reqStr_sub kvs "comment" h3
      refine ⟨⟨a1, a2, a3⟩, ?_, ?_⟩
      · simp only [validateRubricItem, hv1, hv2, hv3]
        rfl
      · apply jsonSubKvs_of_forall
        intro k jv hmem
        have hget := getField_of_mem_nodup kvs k jv hnd hmem
        have hk : k ∈ ["item", "score", "comment"] := by
          have := List.all_eq_true.mp hsub (k, jv) hmem
          simpa using this
        simp only [List.mem_cons, List.not_mem_nil, or_false] at hk
        rcases hk with rfl | rfl | rfl
        · exact ⟨_, rfl, hs1 jv hget⟩
        · exact ⟨_, rfl, hs2 jv hget⟩
        · exact ⟨_, rfl, hs3 jv hget⟩
  | null => exact Bool.noConfusion h
  | bool b => exact Bool.noConfusion h
  | int n => exact Bool.noConfusion h
  | float l => exact Bool.noConfusion h
  | str s => exact Bool.noConfusion h
  | arr xs => exact Bool.noConfusion h

theorem validateRubricEvaluation_sub (j : Json) (h : matchesRubricEvaluation j = true) :
    ∃ r, validateRubricEvaluation j = Except.ok r ∧ jsonSub j (rubricEvaluationJson r) = true := by
  cases j with
  | obj kvs =>
      simp only [matchesRubricEvaluation, Bool.and_eq_true] at h
      obtain ⟨⟨⟨hnd, hsub⟩, h1⟩, h2⟩ := h
      obtain ⟨a1, hv1, hs1⟩ := reqList_sub validateRubricItem rubricItemJson matchesRubricItem validateRubricItem_sub kvs "structure_performance" h1
      obtain ⟨a2, hv2, hs2⟩ := reqList_sub validateRubricItem rubricItemJson matchesRubricItem validateRubricItem_sub kvs "content_language" h2
      refine ⟨⟨a1, a2⟩, ?_, ?_⟩
      · simp only [validateRubricEvaluation, hv1, hv2]
        rfl
      · apply jsonSubKvs_of_forall
        intro k jv hmem
        have hget := getField_of_mem_nodup kvs k jv hnd hmem
        have hk : k ∈ ["structure_performance", "content_language"] := by
          have := List.all_eq_true.mp hsub (k, jv) hmem
          simpa using this
        simp only [List.mem_cons, List.not_mem_nil, or_false] at hk
        rcases hk with rfl | rfl
        · exact ⟨_, rfl, hs1 jv hget⟩
        · exact ⟨_, rfl, hs2 jv hget⟩
  | null => exact Bool.noConfusion h
  | bool b => exact Bool.noConfusion h
  | int n => exact Bool.noConfusion h
  | float l => exact Bool.noConfusion h
  | str s => exact Bool.noConfusion h
  | arr xs => exact Bool.noConfusion h

theorem validateOverallAssessment_sub (j : Json) (h : matchesOverallAssessment j = true) :
    ∃ r, validateOverallAssessment j = Except.ok r ∧ jsonSub j (overallAssessmentJson r) = true := by
  cases j with
  | obj kvs =>
      simp only [matchesOverallAssessment, Bool.and_eq_true] at h
      obtain ⟨⟨⟨⟨⟨hnd, hsub⟩, h1⟩, h2⟩, h3⟩, h4⟩ := h
      obtain ⟨a1, hv1, hs1⟩ := reqStr_sub kvs "total_score" h1
      obtain ⟨a2, hv2, hs2⟩ := reqStr_sub kvs "suggested_grade" h2
      obtain ⟨a3, hv3, hs3⟩ := reqStr_sub kvs "grade_basis" h3
      obtain ⟨a4, hv4, hs4⟩ := reqStr_sub kvs "general_comment" h4
      refine ⟨⟨a1, a2, a3, a4⟩, ?_, ?_⟩
      · simp only [validateOverallAssessment, hv1, hv2, hv3, hv4]
        rfl
      · apply jsonSubKvs_of_forall
        intro k jv hmem
        have hget := getField_of_mem_nodup kvs k jv hnd hmem
        have hk : k ∈ ["total_score", "suggested_grade", "grade_basis", "general_comment"] := by
          have := List.all_eq_true.mp hsub (k, jv) hmem
          simpa using this
        simp only [List.mem_cons, List.not_mem_nil, or_false] at hk
        rcases hk with rfl | rfl | rfl | rfl
        · exact ⟨_, rfl, hs1 jv hget⟩
        · exact ⟨_, rfl, hs2 jv hget⟩
        · exact ⟨_, rfl, hs3 jv hget⟩
        · exact ⟨_, rfl, hs4 jv hget⟩
  | null => exact Bool.noConfusion h
  | bool b => exact Bool.noConfusion h
  | int n => exact Bool.noConfusion h
  | float l => exact Bool.noConfusion h
  | str s => exact Bool.noConfusion h
  | arr xs => exact Bool.noConfusion h

theorem validateParagraph_sub (j : Json) (h : matchesParagraph j = true) :
    ∃ r, validateParagraph j = Except.ok r ∧ jsonSub j (paragraphJson r) = true := by
  cases j with
  | obj kvs =>
      simp only [matchesParagraph, Bool.and_eq_true] at h
      obtain ⟨⟨⟨⟨⟨⟨⟨hnd, hsub⟩, h1⟩, h2⟩, h3⟩, h4⟩, h5⟩, h6⟩ := h
      obtain ⟨a1, hv1, hs1⟩ := reqStr_sub kvs "submissionType" h1
      obtain ⟨a2, hv2, hs2⟩ := reqList_sub validateErrorAnalysisItem errorAnalysisItemJson matchesErrorAnalysisItem validateErrorAnalysisItem_sub kvs "error_analysis" h2
      obtain ⟨a3, hv3, hs3⟩ := reqObj_sub validateRubricEvaluation rubricEvaluationJson matchesRubricEvaluation validateRubricEvaluation_sub kvs "rubric_evaluation" h3
      obtain ⟨a4, hv4, hs4⟩ := reqObj_sub validateOverallAssessment overallAssessmentJson matchesOverallAssessment validateOverallAssessment_sub kvs "overall_assessment" h4
      obtain ⟨a5, hv5, hs5⟩ := reqStr_sub kvs "model_paragraph" h5
      obtain ⟨a6, hv6, hs6⟩ := reqStr_sub kvs "teacher_summary_feedback" h6
      refine ⟨⟨a1, a2, a3, a4, a5, a6⟩, ?_, ?_⟩
      · simp only [validateParagraph, hv1, hv2, hv3, hv4, hv5, hv6]
        rfl
      · apply jsonSubKvs_of_forall
        intro k jv hmem
        have hget := getField_of_mem_nodup kvs k jv hnd hmem
        have hk : k ∈ ["submissionType", "error_analysis", "rubric_evaluation", "overall_assessment", "model_paragraph", "teacher_summary_feedback"] := by
          have := List.all_eq_true.mp hsub (k, jv) hmem
          simpa using this
        simp only [List.mem_cons, List.not_mem_nil, or_false] at hk
        rcases hk with rfl | rfl | rfl | rfl | rfl | rfl
        · exact ⟨_, rfl, hs1 jv hget⟩
        · exact ⟨_, rfl, hs2 jv hget⟩
        · exact ⟨_, rfl, hs3 jv hget⟩
        · exact ⟨_, rfl, hs4 jv hget⟩
        · exact ⟨_, rfl, hs5 jv hget⟩
        · exact ⟨_, rfl, hs6 jv hget⟩
  | null => exact Bool.noConfusion h
  | bool b => exact Bool.noConfusion h
  | int n => exact Bool.noConfusion h
  | float l => exact Bool.noConfusion h
  | str s => exact Bool.noConfusion h
  | arr xs => exact Bool.noConfusion h

theorem validateErrorAnalysisTableItem_sub (j : Json) (h : matchesErrorAnalysisTableItem j = true) :
    ∃ r, validateErrorAnalysisTableItem j = Except.ok r ∧ jsonSub j (errorAnalysisTableItemJson r) = true := by
  cases j with
  | obj kvs =>
      simp only [matchesErrorAnalysisTableItem, Bool.and_eq_true] at h
      obtain ⟨⟨⟨⟨⟨hnd, hsub⟩, h1⟩, h2⟩, h3⟩, h4⟩ := h
      obtain ⟨a1, hv1, hs1⟩ := reqStr_sub kvs "original_sentence" h1
      obtain ⟨a2, hv2, hs2⟩ := reqStr_sub kvs "error_type" h2
      obtain ⟨a3, hv3, hs3⟩ := reqStr_sub kvs "problem_description" h3
      obtain ⟨a4, hv4, hs4⟩ := reqStr_sub kvs "suggestion" h4
      refine ⟨⟨a1, a2, a3, a4⟩, ?_, ?_⟩
      · simp only [validateErrorAnalysisTableItem, hv1, hv2, hv3, hv4]
        rfl
      · apply jsonSubKvs_of_forall
        intro k jv hmem
        have hget := getField_of_mem_nodup kvs k jv hnd hmem
        have hk : k ∈ ["original_sentence", "error_type", "problem_description", "suggestion"] := by
          have := List.all_eq_true.mp hsub (k, jv) hmem
          simpa using this
        simp only [List.mem_cons, List.not_mem_nil, or_false] at hk
        rcases hk with rfl | rfl | rfl | rfl
        · exact ⟨_, rfl, hs1 jv hget⟩
        · exact ⟨_, rfl, hs2 jv hget⟩
        · exact ⟨_, rfl, hs3 jv hget⟩
        · exact ⟨_, rfl, hs4 jv hget⟩
  | null => exact Bool.noConfusion h
  | bool b => exact Bool.noConfusion h
  | int n => exact Bool.noConfusion h
  | float l => exact Bool.noConfusion h
  | str s => exact Bool.noConfusion h
  | arr xs => exact Bool.noConfusion h

theorem validateSummaryFeedback_sub (j : Json) (h : matchesSummaryFeedback j = true) :
    ∃ r, validateSummaryFeedback j = Except.ok r ∧ jsonSub j (summaryFeedbackJson r) = true := by
  cases j with
  | obj kvs =>
      simp only [matchesSummaryFeedback, Bool.and_eq_true] at h
      obtain ⟨⟨⟨⟨⟨hnd, hsub⟩, h1⟩, h2⟩, h3⟩, h4⟩ := h
      obtain ⟨a1, hv1, hs1⟩ := reqStr_sub kvs "summary_feedback" h1
      obtain ⟨a2, hv2, hs2⟩ := reqStr_sub kvs "total_score_display" h2
      obtain ⟨a3, hv3, hs3⟩ := reqStr_sub kvs "suggested_grade_display" h3
      obtain ⟨a4, hv4, hs4⟩ := reqStr_sub kvs "grade_basis_display" h4
      refine ⟨⟨a1, a2, a3, a4⟩, ?_, ?_⟩
      · simp only [validateSummaryFeedback, hv1, hv2, hv3, hv4]
        rfl
      · apply jsonSubKvs_of_forall
        intro k jv hmem
        have hget := getField_of_mem_nodup kvs k jv hnd hmem
        have hk : k ∈ ["summary_feedback", "total_score_display", "suggested_grade_display", "grade_basis_display"] := by
          have := List.all_eq_true.mp hsub (k, jv) hmem
          simpa using this
        simp only [List.mem_cons, List.not_mem_nil, or_false] at hk
        rcases hk with rfl | rfl | rfl | rfl
        · exact ⟨_, rfl, hs1 jv hget⟩
        · exact ⟨_, rfl, hs2 jv hget⟩
        · exact ⟨_, rfl, hs3 jv hget⟩
        · exact ⟨_, rfl, hs4 jv hget⟩
  | null => exact Bool.noConfusion h
  | bool b => exact Bool.noConfusion h
  | int n => exact Bool.noConfusion h
  | float l => exact Bool.noConfusion h
  | str s => exact Bool.noConfusion h
  | arr xs => exact Bool.noConfusion h

theorem validateRevisedDemonstration_sub (j : Json) (h : matchesRevisedDemonstration j = true) :
    ∃ r, validateRevisedDemonstration j = Except.ok r ∧ jsonSub j (revisedDemonstrationJson r) = true := by
  cases j with
  | obj kvs =>
      simp only [matchesRevisedDemonstration, Bool.and_eq_true] at h
      obtain ⟨⟨⟨hnd, hsub⟩, h1⟩, h2⟩ := h
      obtain ⟨a1, hv1, hs1⟩ := reqStr_sub kvs "original_with_errors_highlighted" h1
      obtain ⟨a2, hv2, hs2⟩ := reqStr_sub kvs "suggested_revision" h2
      refine ⟨⟨a1, a2⟩, ?_, ?_⟩
      · simp only [validateRevisedDemonstration, hv1, hv2]
        rfl
      · apply jsonSubKvs_of_forall
        intro k jv hmem
        have hget := getField_of_mem_nodup kvs k jv hnd hmem
        have hk : k ∈ ["original_with_errors_highlighted", "suggested_revision"] := by
          have := List.all_eq_true.mp hsub (k, jv) hmem
          simpa using this
        simp only [List.mem_cons, List.not_mem_nil, or_false] at hk
        rcases hk with rfl | rfl
        · exact ⟨_, rfl, hs1 jv hget⟩
        · exact ⟨_, rfl, hs2 jv hget⟩
  | null => exact Bool.noConfusion h
  | bool b => exact Bool.noConfusion h
  | int n => exact Bool.noConfusion h
  | float l => exact Bool.noConfusion h
  | str s => exact Bool.noConfusion h
  | arr xs => exact Bool.noConfusion h

theorem validateQuiz_sub (j : Json) (h : matchesQuiz j = true) :
    ∃ r, validateQuiz j = Except.ok r ∧ jsonSub j (quizJson r) = true := by
  cases j with
  | obj kvs =>
      simp only [matchesQuiz, Bool.and_eq_true] at h
      obtain ⟨⟨⟨⟨⟨⟨hnd, hsub⟩, h1⟩, h2⟩, h3⟩, h4⟩, h5⟩ := h
      obtain ⟨a1, hv1, hs1⟩ := reqStr_sub kvs "submissionType" h1
      obtain ⟨a2, hv2, hs2⟩ := reqList_sub validateErrorAnalysisTableItem errorAnalysisTableItemJson matchesErrorAnalysisTableItem validateErrorAnalysisTableItem_sub kvs "error_analysis_table" h2
      obtain ⟨a3, hv3, hs3⟩ := reqObj_sub validateSummaryFeedback summaryFeedbackJson matchesSummaryFeedback validateSummaryFeedback_sub kvs "summary_feedback_for_student" h3
      obtain ⟨a4, hv4, hs4⟩ := reqObj_sub validateRevisedDemonstration revisedDemonstrationJson matchesRevisedDemonstration validateRevisedDemonstration_sub kvs "revised_demonstration" h4
      obtain ⟨a5, hv5, hs5⟩ := reqStr_sub kvs "positive_learning_feedback" h5
      refine ⟨⟨a1, a2, a3, a4, a5⟩, ?_, ?_⟩
      · simp only [validateQuiz, hv1, hv2, hv3, hv4, hv5]
        rfl
      · apply jsonSubKvs_of_forall
        intro k jv hmem
        have hget := getField_of_mem_nodup kvs k jv hnd hmem
        have hk : k ∈ ["submissionType", "error_analysis_table", "summary_feedback_for_student", "revised_demonstration", "positive_learning_feedback"] := by
          have := List.all_eq_true.mp hsub (k, jv) hmem
          simpa using this
        simp only [List.mem_cons, List.not_mem_nil, or_false] at hk
        rcases hk with rfl | rfl | rfl | rfl | rfl
        · exact ⟨_, rfl, hs1 jv hget⟩
        · exact ⟨_, rfl, hs2 jv hget⟩
        · exact ⟨_, rfl, hs3 jv hget⟩
        · exact ⟨_, rfl, hs4 jv hget⟩
        · exact ⟨_, rfl, hs5 jv hget⟩
  | null => exact Bool.noConfusion h
  | bool b => exact Bool.noConfusion h
  | int n => exact Bool.noConfusion h
  | float l => exact Bool.noConfusion h
  | str s => exact Bool.noConfusion h
  | arr xs => exact Bool.noConfusion h

theorem validateQuestionFeedback_sub (j : Json) (h : matchesQuestionFeedback j = true) :
    ∃ r, validateQuestionFeedback j = Except.ok r ∧ jsonSub j (questionFeedbackJson r) = true := by
  cases j with
  | obj kvs =>
      simp only [matchesQuestionFeedback, Bool.and_eq_true] at h
      obtain ⟨⟨⟨⟨⟨⟨⟨⟨hnd, hsub⟩, h1⟩, h2⟩, h3⟩, h4⟩, h5⟩, h6⟩, h7⟩ := h
      obtain ⟨a1, hv1, hs1⟩ := reqStr_sub kvs "question_number" h1
      obtain ⟨a2, hv2, hs2⟩ := reqStr_sub kvs "student_answer" h2
      obtain ⟨a3, hv3, hs3⟩ := reqStr_sub kvs "is_correct" h3
      obtain ⟨a4, hv4, hs4⟩ := reqStr_sub kvs "comment" h4
      obtain ⟨a5, hv5, hs5⟩ := reqStr_sub kvs "correct_answer" h5
      obtain ⟨a6, hv6, hs6⟩ := reqStr_sub kvs "answer_source_query" h6
      obtain ⟨a7, hv7, hs7⟩ := reqStr_sub kvs "answer_source_content" h7
      refine ⟨⟨a1, a2, a3, a4, a5, a6, a7⟩, ?_, ?_⟩
      · simp only [validateQuestionFeedback, hv1, hv2, hv3, hv4, hv5, hv6, hv7]
        rfl
      · apply jsonSubKvs_of_forall
        intro k jv hmem
        have hget := getField_of_mem_nodup kvs k jv hnd hmem
        have hk : k ∈ ["question_number", "student_answer", "is_correct", "comment", "correct_answer", "answer_source_query", "answer_source_content"] := by
          have := List.all_eq_true.mp hsub (k, jv) hmem
          simpa using this
        simp only [List.mem_cons, List.not_mem_nil, or_false] at hk
        rcases hk with rfl | rfl | rfl | rfl | rfl | rfl | rfl
        · exact ⟨_, rfl, hs1 jv hget⟩
        · exact ⟨_, rfl, hs2 jv hget⟩
        · exact ⟨_, rfl, hs3 jv hget⟩
        · exact ⟨_, rfl, hs4 jv hget⟩
        · exact ⟨_, rfl, hs5 jv hget⟩
        · exact ⟨_, rfl, hs6 jv hget⟩
        · exact ⟨_, rfl, hs7 jv hget⟩
  | null => exact Bool.noConfusion h
  | bool b => exact Bool.noConfusion h
  | int n => exact Bool.noConfusion h
  | float l => exact Bool.noConfusion h
  | str s => exact Bool.noConfusion h
  | arr xs => exact Bool.noConfusion h

theorem validateSectionFeedback_sub (j : Json) (h : matchesSectionFeedback j = true) :
    ∃ r, validateSectionFeedback j = Except.ok r ∧ jsonSub j (sectionFeedbackJson r) = true := by
  cases j with
  | obj kvs =>
      simp only [matchesSectionFeedback, Bool.and_eq_true] at h
      obtain ⟨⟨⟨⟨hnd, hsub⟩, h1⟩, h2⟩, h3⟩ := h
      obtain ⟨a1, hv1, hs1⟩ := reqStr_sub kvs "section_title" h1
      obtain ⟨a2, hv2, hs2⟩ := reqList_sub validateQuestionFeedback questionFeedbackJson matchesQuestionFeedback validateQuestionFeedback_sub kvs "questions_feedback" h2
      obtain ⟨a3, hv3, hs3⟩ := reqStr_sub kvs "section_summary" h3
      refine ⟨⟨a1, a2, a3⟩, ?_, ?_⟩
      · simp only [validateSectionFeedback, hv1, hv2, hv3]
        rfl
      · apply jsonSubKvs_of_forall
        intro k jv hmem
        have hget := getField_of_mem_nodup kvs k jv hnd hmem
        have hk : k ∈ ["section_title", "questions_feedback", "section_summary"] := by
          have := List.all_eq_true.mp hsub (k, jv) hmem
          simpa using this
        simp only [List.mem_cons, List.not_mem_nil, or_false] at hk
        rcases hk with rfl | rfl | rfl
        · exact ⟨_, rfl, hs1 jv hget⟩
        · exact ⟨_, rfl, hs2 jv hget⟩
        · exact ⟨_, rfl, hs3 jv hget⟩
  | null => exact Bool.noConfusion h
  | bool b => exact Bool.noConfusion h
  | int n => exact Bool.noConfusion h
  | float l => exact Bool.noConfusion h
  | str s => exact Bool.noConfusion h
  | arr xs => exact Bool.noConfusion h

theorem validateScoreBreakdownItem_sub (j : Json) (h : matchesScoreBreakdownItem j = true) :
    ∃ r, validateScoreBreakdownItem j = Except.ok r ∧ jsonSub j (scoreBreakdownItemJson r) = true := by
  cases j with
  | obj kvs =>
      simp only [matchesScoreBreakdownItem, Bool.and_eq_true] at h
      obtain ⟨⟨⟨⟨hnd, hsub⟩, h1⟩, h2⟩, h3⟩ := h
      obtain ⟨a1, hv1, hs1⟩ := reqStr_sub kvs "section" h1
      obtain ⟨a2, hv2, hs2⟩ := reqScore_sub kvs "max_score" h2
      obtain ⟨a3, hv3, hs3⟩ := reqScore_sub kvs "obtained_score" h3
      refine ⟨⟨a1, a2, a3⟩, ?_, ?_⟩
      · simp only [validateScoreBreakdownItem, hv1, hv2, hv3]
        rfl
      · apply jsonSubKvs_of_forall
        intro k jv hmem
        have hget := getField_of_mem_nodup kvs k jv hnd hmem
        have hk : k ∈ ["section", "max_score", "obtained_score"] := by
          have := List.all_eq_true.mp hsub (k, jv) hmem
          simpa using this
        simp only [List.mem_cons, List.not_mem_nil, or_false] at hk
        rcases hk with rfl | rfl | rfl
        · exact ⟨_, rfl, hs1 jv hget⟩
        · exact ⟨_, rfl, hs2 jv hget⟩
        · exact ⟨_, rfl, hs3 jv hget⟩
  | null => exact Bool.noConfusion h
  | bool b => exact Bool.noConfusion h
  | int n => exact Bool.noConfusion h
  | float l => exact Bool.noConfusion h
  | str s => exact Bool.noConfusion h
  | arr xs => exact Bool.noConfusion h

theorem validateWorksheet_sub (j : Json) (h : matchesWorksheet j = true) :
    ∃ r, validateWorksheet j = Except.ok r ∧ jsonSub j (worksheetJson r) = true := by
  cases j with
  | obj kvs =>
      simp only [matchesWorksheet, Bool.and_eq_true] at h
      obtain ⟨⟨⟨⟨⟨⟨⟨⟨⟨⟨⟨hnd, hsub⟩, h1⟩, h2⟩, h3⟩, h4⟩, h5⟩, h6⟩, h7⟩, h8⟩, h9⟩, h10⟩ := h
      obtain ⟨a1, hv1, hs1⟩ := reqStr_sub kvs "submissionType" h1
      obtain ⟨a2, hv2, hs2⟩ := reqStr_sub kvs "title" h2
      obtain ⟨a3, hv3, hs3⟩ := reqList_sub validateSectionFeedback sectionFeedbackJson matchesSectionFeedback validateSectionFeedback_sub kvs "sections" h3
      obtain ⟨a4, hv4, hs4⟩ := reqStr_sub kvs "overall_score_summary_title" h4
      obtain ⟨a5, hv5, hs5⟩ := reqList_sub validateScoreBreakdownItem scoreBreakdownItemJson matchesScoreBreakdownItem validateScoreBreakdownItem_sub kvs "score_breakdown_table" h5
      obtain ⟨a6, hv6, hs6⟩ := reqStr_sub kvs "final_total_score_text" h6
      obtain ⟨a7, hv7, hs7⟩ := reqStr_sub kvs "final_suggested_grade_title" h7
      obtain ⟨a8, hv8, hs8⟩ := reqStr_sub kvs "final_suggested_grade_text" h8
      obtain ⟨a9, hv9, hs9⟩ := optStr_sub kvs "overall_feedback_title" h9
      obtain ⟨a10, hv10, hs10⟩ := optStr_sub kvs "overall_feedback" h10
      refine ⟨⟨a1, a2, a3, a4, a5, a6, a7, a8, a9, a10⟩, ?_, ?_⟩
      · simp only [validateWorksheet, hv1, hv2, hv3, hv4, hv5, hv6, hv7, hv8, hv9, hv10]
        rfl
      · apply jsonSubKvs_of_forall
        intro k jv hmem
        have hget := getField_of_mem_nodup kvs k jv hnd hmem
        have hk : k ∈ ["submissionType", "title", "sections", "overall_score_summary_title", "score_breakdown_table", "final_total_score_text", "final_suggested_grade_title", "final_suggested_grade_text", "overall_feedback_title", "overall_feedback"] := by
          have := List.all_eq_true.mp hsub (k, jv) hmem
          simpa using this
        simp only [List.mem_cons, List.not_mem_nil, or_false] at hk
        rcases hk with rfl | rfl | rfl | rfl | rfl | rfl | rfl | rfl | rfl | rfl
        · exact ⟨_, rfl, hs1 jv hget⟩
        · exact ⟨_, rfl, hs2 jv hget⟩
        · exact ⟨_, rfl, hs3 jv hget⟩
        · exact ⟨_, rfl, hs4 jv hget⟩
        · exact ⟨_, rfl, hs5 jv hget⟩
        · exact ⟨_, rfl, hs6 jv hget⟩
        · exact ⟨_, rfl, hs7 jv hget⟩
        · exact ⟨_, rfl, hs8 jv hget⟩
        · exact ⟨_, rfl, hs9 jv hget⟩
        · exact ⟨_, rfl, hs10 jv hget⟩
  | null => exact Bool.noConfusion h
  | bool b => exact Bool.noConfusion h
  | int n => exact Bool.noConfusion h
  | float l => exact Bool.noConfusion h
  | str s => exact Bool.noConfusion h
  | arr xs => exact Bool.noConfusion h

theorem parseArrBody_shape (fuel : Nat) : ∀ (l : List Char) (first : Bool) (acc : List Json)
    (v : Json) (r : List Char), parseArrBody fuel l first acc = Except.ok (v, r) →
    ∃ xs, v = Json.arr xs := by
  induction fuel with
  | zero =>
      intro l first acc v r h
      simp [parseArrBody] at h
  | succ fuel ih =>
      intro l first acc v r h
      unfold parseArrBody at h
      split at h
      · split at h
        · injection h with hp
          injection hp with hv hr
          exact ⟨[], hv.symm⟩
        · exact absurd h (by simp)
      · split at h
        · exact absurd h (by simp)
        · split at h
          · exact ih _ _ _ _ _ h
          · injection h with hp
            injection hp with hv hr
            exact ⟨_, hv.symm⟩
          · exact absurd h (by simp)

theorem parseNumber_shape (l : List Char) (v : Json) (r : List Char)
    (h : parseNumber l = Except.ok (v, r)) :
    (∃ n, v = Json.int n) ∨ (∃ s, v = Json.float s) := by
  unfold parseNumber at h
  repeat' split at h
  all_goals first
    | exact Except.noConfusion h
    | (have hp := Except.ok.inj h; exact Or.inl ⟨_, (congrArg Prod.fst hp).symm⟩)
    | (have hp := Except.ok.inj h; exact Or.inr ⟨_, (congrArg Prod.fst hp).symm⟩)

theorem parseValue_obj_head (fuel : Nat) (l : List Char) (kvs : List (String × Json))
    (r : List Char) (h : parseValue fuel l = Except.ok (Json.obj kvs, r)) :
    ∃ rest, l = '\x7b' :: rest := by
  cases fuel with
  | zero => simp [parseValue] at h
  | succ fuel =>
      cases l with
      | nil => simp [parseValue] at h
      | cons c rest =>
          refine ⟨rest, ?_⟩
          by_cases hc : c = '\x7b'
          · rw [hc]
          · exfalso
            rw [parseValue] at h
            rw [if_neg hc] at h
            repeat' split at h
            all_goals first
              | exact Except.noConfusion h
              | (obtain ⟨xs, hxs⟩ := parseArrBody_shape _ _ _ _ _ _ h
                 exact Json.noConfusion hxs)
              | (simp_all
                 done)
              | (rcases parseNumber_shape _ _ _ h with ⟨n, hn⟩ | ⟨s, hs⟩ <;> simp_all)

theorem isSpace_of_jsonWs (c : Char) (h : isJsonWs c = true) : isSpace c = true := by
  simp only [isJsonWs, Bool.or_eq_true, decide_eq_true_eq] at h
  rcases h with ((h | h) | h) | h <;> simp [isSpace, h]

theorem startsWithBrace_strip (s : String) (ws rest : List Char)
    (hws : ∀ c ∈ ws, isJsonWs c = true)
    (heq : s.toList = ws ++ '\x7b' :: rest) :
    startsWithBrace (pyStrip s) = true := by
  unfold pyStrip pyStripL
  rw [heq]
  have hdw : (ws ++ '\x7b' :: rest).dropWhile isSpace = '\x7b' :: rest := by
    rw [List.dropWhile_append]
    rw [if_pos (by
      rw [List.isEmpty_iff, List.dropWhile_eq_nil_iff]
      intro x hx
      exact isSpace_of_jsonWs x (hws x hx))]
    rw [List.dropWhile_cons, if_neg (by decide)]
  rw [hdw]
  have hrev : ('\x7b' :: rest).reverse = rest.reverse ++ ['\x7b'] := by simp
  rw [hrev, List.dropWhile_append]
  by_cases hemp : (rest.reverse.dropWhile isSpace).isEmpty
  · rw [if_pos hemp]
    rfl
  · rw [if_neg hemp]
    rw [List.reverse_append]
    rfl

theorem jsonLoads_obj_gate (s : String) (kvs : List (String × Json))
    (h : jsonLoads s = Except.ok (Json.obj kvs)) :
    s ≠ "" ∧ startsWithBrace (pyStrip s) = true := by
  unfold jsonLoads at h
  split at h
  · exact absurd h (by simp)
  · rename_i v rest hpv
    split at h
    · have hv : v = Json.obj kvs := Except.ok.inj h
      subst hv
      obtain ⟨rest2, hdrop⟩ := parseValue_obj_head _ _ kvs _ hpv
      have hlist : s.toList = s.toList.takeWhile isJsonWs ++ '\x7b' :: rest2 := by
        conv_lhs => rw [← List.takeWhile_append_dropWhile (p := isJsonWs) (l := s.toList)]
        rw [hdrop]
      refine ⟨?_, ?_⟩
      · intro hs
        rw [hs] at hlist
        exact List.noConfusion (List.append_eq_nil.mp hlist.symm).2
      · exact startsWithBrace_strip s _ rest2
          (fun c hc => List.mem_takeWhile_imp hc) hlist
    · exact absurd h (by simp)

theorem schemaMatches_obj (st : String) (v : Json) (h : schemaMatches st v = true) :
    ∃ kvs, v = Json.obj kvs := by
  cases v with
  | obj kvs => exact ⟨kvs, rfl⟩
  | null =>
      exfalso; unfold schemaMatches at h; repeat' split at h
      all_goals exact Bool.noConfusion h
  | bool b =>
      exfalso; unfold schemaMatches at h; repeat' split at h
      all_goals exact Bool.noConfusion h
  | int n =>
      exfalso; unfold schemaMatches at h; repeat' split at h
      all_goals exact Bool.noConfusion h
  | float l =>
      exfalso; unfold schemaMatches at h; repeat' split at h
      all_goals exact Bool.noConfusion h
  | str s =>
      exfalso; unfold schemaMatches at h; repeat' split at h
      all_goals exact Bool.noConfusion h
  | arr xs =>
      exfalso; unfold schemaMatches at h; repeat' split at h
      all_goals exact Bool.noConfusion h

theorem normalizeResponse_cons (st : String) (cand : List String)
    (rest : List (List String)) (br : Option String) :
    normalizeResponse st ⟨cand :: rest, br⟩ =
      (if cleanedOf (String.join cand) = "" ||
          !startsWithBrace (pyStrip (cleanedOf (String.join cand))) then
        NormResult.err (NormError.emptyOrInvalidJson (String.join cand))
      else
        match jsonLoads (cleanedOf (String.join cand)) with
        | Except.error e =>
            NormResult.err (NormError.malformedJson e (cleanedOf (String.join cand)))
        | Except.ok v => dispatchValidate st v) := rfl

/-- C1: for each of the four submission categories, a model response
whose extracted JSON payload matches the category's designated schema
exactly (mandatory fields present with the correct basic shape, score
unions string-or-number, optional fields possibly absent, no extra
keys) normalizes to a Validated result of exactly that category's
schema, and every field of the input payload is preserved in the
result (`jsonSub`). -/
theorem validPayload_validates (st : String) (cand : List String)
    (rest : List (List String)) (br : Option String) (v : Json)
    (hst : st = "段落寫作評閱" ∨ st = "測驗寫作評改" ∨ st = "學習單批改" ∨ st = "讀寫習作評分")
    (hparse : jsonLoads (cleanedOf (String.join cand)) = Except.ok v)
    (hmatch : schemaMatches st v = true) :
    ∃ res, normalizeResponse st ⟨cand :: rest, br⟩ = NormResult.ok res ∧
      jsonSub v (resultToJson res) = true ∧
      resultMatchesCategory st res = true := by
  obtain ⟨kvs, hkvs⟩ := schemaMatches_obj st v hmatch
  subst hkvs
  obtain ⟨hne, hsw⟩ := jsonLoads_obj_gate _ kvs hparse
  have hnorm : normalizeResponse st ⟨cand :: rest, br⟩ =
      dispatchValidate st (Json.obj kvs) := by
    rw [normalizeResponse_cons, if_neg (by simp [hne, hsw]), hparse]
  rcases hst with h | h | h | h
  · subst h
    have hm : matchesParagraph (Json.obj kvs) = true := by
      simpa [schemaMatches] using hmatch
    obtain ⟨r, hval, hsub⟩ := validateParagraph_sub _ hm
    refine ⟨ApiResult.paragraph r, ?_, hsub, rfl⟩
    rw [hnorm]
    simp [dispatchValidate, hval]
  · subst h
    have hm : matchesQuiz (Json.obj kvs) = true := by
      simpa [schemaMatches] using hmatch
    obtain ⟨r, hval, hsub⟩ := validateQuiz_sub _ hm
    refine ⟨ApiResult.quiz r, ?_, hsub, rfl⟩
    rw [hnorm]
    simp [dispatchValidate, hval]
  · subst h
    have hm : matchesWorksheet (Json.obj kvs) = true := by
      simpa [schemaMatches] using hmatch
    obtain ⟨r, hval, hsub⟩ := validateWorksheet_sub _ hm
    refine ⟨ApiResult.worksheet r, ?_, hsub, rfl⟩
    rw [hnorm]
    simp [dispatchValidate, hval]
  · subst h
    have hm : matchesWorksheet (Json.obj kvs) = true := by
      simpa [schemaMatches] using hmatch
    obtain ⟨r, hval, hsub⟩ := validateWorksheet_sub _ hm
    refine ⟨ApiResult.worksheet r, ?_, hsub, rfl⟩
    rw [hnorm]
    simp [dispatchValidate, hval]

/-- The witness payload value as decoded by `jsonLoads`. -/
def witnessParagraphPayload : Json :=
  Json.obj
    [("submissionType", Json.str "段落寫作評閱"),
     ("error_analysis", Json.arr
       [Json.obj [("original_sentence", Json.str "a"), ("error_type", Json.str "b"),
                  ("error_content", Json.str "c"), ("suggestion", Json.str "d")]]),
     ("rubric_evaluation", Json.obj
       [("structure_performance", Json.arr
          [Json.obj [("item", Json.str "i"), ("score", Json.int 8),
                     ("comment", Json.str "k")]]),
        ("content_language", Json.arr [])]),
     ("overall_assessment", Json.obj
       [("total_score", Json.str "68/100"), ("suggested_grade", Json.str "C+"),
        ("grade_basis", Json.str "g"), ("general_comment", Json.str "gc")]),
     ("model_paragraph", Json.str "mp"),
     ("teacher_summary_feedback", Json.str "tsf")]

/-- The raw model response text of the witness. -/
def witnessParagraphText : String :=
  "\x7b\"submissionType\": \"段落寫作評閱\", \"error_analysis\": [\x7b\"original_sentence\": \"a\", \"error_type\": \"b\", \"error_content\": \"c\", \"suggestion\": \"d\"\x7d], \"rubric_evaluation\": \x7b\"structure_performance\": [\x7b\"item\": \"i\", \"score\": 8, \"comment\": \"k\"\x7d], \"content_language\": []\x7d, \"overall_assessment\": \x7b\"total_score\": \"68/100\", \"suggested_grade\": \"C+\", \"grade_basis\": \"g\", \"general_comment\": \"gc\"\x7d, \"model_paragraph\": \"mp\", \"teacher_summary_feedback\": \"tsf\"\x7d"

set_option maxRecDepth 8000 in
/-- C1 witness: a concrete valid paragraph-grading payload. -/
theorem validPayload_validates_witness :
    ∃ res, normalizeResponse "段落寫作評閱" ⟨[[witnessParagraphText]], none⟩ = NormResult.ok res ∧
      jsonSub witnessParagraphPayload (resultToJson res) = true ∧
      resultMatchesCategory "段落寫作評閱" res = true :=
  validPayload_validates "段落寫作評閱" [witnessParagraphText] [] none witnessParagraphPayload
    (Or.inl rfl) rfl (by decide)
